import Mathlib

/-!
Verification of the conversation state machine and slot-selection engine of the
Voice-Agent appointment scheduler (src/services/conversation_engine.py,
slot_manager.py, intent_classifier.py, booking_code.py, config/settings.py).

The Python core is embedded shallowly:
* strings are Lean `String`s (the inputs of interest are ASCII, so `Char.toLower`
  agrees with Python `str.lower`; `pyStrip` is `str.strip`);
* the regular expressions of `_parse_preferred_datetime` are embedded as explicit
  left-to-right scanners with ordered (backtracking) alternatives, matching
  Python `re.search` semantics for these concrete patterns;
* `list.sort(key=...)` (a stable sort) is embedded as a stable insertion sort;
* `datetime(2026, m, d)` validity is day-in-month for the non-leap year 2026,
  `date.weekday()` is the standard day-of-week computation (Monday = 0);
* the random `generate_booking_code()` is a session parameter `gen`: theorems
  quantify over the generated code;
* the slot source (`_load_slots_from_calendar_or_mock`) is a parameter
  `slots : List Slot` of `step`/`offer_slots`;
* the reply strings of `AgentTurn.text` are elided: every claim is about the
  state and the context, which the embedding models exactly;
* `self.context.existing_booking_code` is set from `user_text.strip() or None`,
  so it is never the empty string: Python truthiness of the field coincides
  with `Option.isSome`.
-/

namespace VoiceAgent

/-! ### Character classes (Python `re` classes, ASCII fragment) -/

def isDigitC (c : Char) : Bool := 48 ≤ c.toNat && c.toNat ≤ 57

def digitVal (c : Char) : Nat := c.toNat - 48

/-- Python regex `\s`: space, tab, newline, carriage return, vertical tab, form feed. -/
def isSpaceC (c : Char) : Bool :=
  c = ' ' || c = '\t' || c = '\n' || c = '\r' || c.toNat = 11 || c.toNat = 12

/-- Python regex word character `\w` (ASCII fragment): letters, digits, underscore. -/
def isWordC (c : Char) : Bool :=
  isDigitC c || (97 ≤ c.toNat && c.toNat ≤ 122) || (65 ≤ c.toNat && c.toNat ≤ 90) || c = '_'

/-- Python `str.lower`, character-wise (ASCII). -/
def lowerStr (s : String) : String := ⟨s.data.map Char.toLower⟩

/-- Contiguous-sublist test: `pat` occurs somewhere in `cs`. -/
def listInfix (pat : List Char) : List Char → Bool
  | [] => pat.isPrefixOf []
  | c :: rest => pat.isPrefixOf (c :: rest) || listInfix pat rest

/-- Python `tok in hay` substring containment. -/
def containsTok (hay tok : String) : Bool := listInfix tok.data hay.data

/-- Python `any(x in hay for x in toks)`. -/
def anyTok (hay : String) (toks : List String) : Bool := toks.any (containsTok hay)

def leadSpaces (cs : List Char) : Nat := (cs.takeWhile isSpaceC).length

def dropSpaces (cs : List Char) : List Char := cs.dropWhile isSpaceC

/-- Python `str.strip()`: remove leading and trailing whitespace. -/
def pyStrip (s : String) : String :=
  ⟨((s.data.dropWhile isSpaceC).reverse.dropWhile isSpaceC).reverse⟩

/-- Word boundary `\b` against the following character (position after a word char). -/
def wordBoundAfter (cs : List Char) : Bool :=
  match cs with
  | [] => true
  | c :: _ => ¬ isWordC c

/-! ### Calendar tables (src/services/slot_manager.py, src/config/settings.py) -/

def WEEKDAY_NAMES : List String :=
  ["monday", "tuesday", "wednesday", "thursday", "friday", "saturday", "sunday"]

def WEEKDAY_ABBREV : List String := ["mon", "tue", "wed", "thu", "fri", "sat", "sun"]

def MONTH_NAMES : List String :=
  ["january", "february", "march", "april", "may", "june",
   "july", "august", "september", "october", "november", "december"]

def MONTH_ABBREV : List String :=
  ["jan", "feb", "mar", "apr", "may", "jun", "jul", "aug", "sep", "oct", "nov", "dec"]

/-- Days in each month of 2026 (not a leap year); `datetime(2026, m, d)` succeeds
iff `1 ≤ d ≤ daysInMonth m`. -/
def daysInMonth (m : Nat) : Nat :=
  [31, 28, 31, 30, 31, 30, 31, 31, 30, 31, 30, 31].getD (m - 1) 0

/-- `date.weekday()` for a Gregorian date: Monday = 0, ..., Sunday = 6. -/
def dateWeekday (y m d : Nat) : Nat :=
  let t := [0, 3, 2, 5, 0, 3, 5, 1, 4, 6, 2, 4]
  let y2 := if m < 3 then y - 1 else y
  (y2 + y2 / 4 - y2 / 100 + y2 / 400 + t.getD (m - 1) 0 + d + 6) % 7

def digitChar (n : Nat) : Char := Char.ofNat (48 + n)

/-- `"%02d"` for the two-digit fields of `strftime("%Y-%m-%d")`. -/
def pad2 (n : Nat) : List Char :=
  if n < 10 then ['0', digitChar n] else [digitChar (n / 10), digitChar (n % 10)]

/-- `dt.strftime("%Y-%m-%d")` for year 2026. -/
def mkDateStr (m d : Nat) : String := ⟨"2026".data ++ '-' :: (pad2 m ++ '-' :: pad2 d)⟩

/-! ### Date phrase matchers
`re.search(rf"(\d{1,2})\s*(?:FULL|ABBR)\b", lowered)` and
`re.search(rf"(?:FULL|ABBR)\s*(\d{1,2})\b", lowered)`, as leftmost scans with
the ordered alternatives of the regex (two digits greedily before one; the full
month name before the abbreviation). -/

/-- Does a month name (full, else abbreviated) followed by `\b` start here,
after optional whitespace? Month names contain no whitespace and start with a
letter, so the greedy `\s*` never needs to backtrack. -/
def monthTail (full abbr : List Char) (cs : List Char) : Bool :=
  let cs2 := dropSpaces cs
  (full.isPrefixOf cs2 && wordBoundAfter (cs2.drop full.length)) ||
  (abbr.isPrefixOf cs2 && wordBoundAfter (cs2.drop abbr.length))

/-- Match `(\d{1,2})\s*(?:FULL|ABBR)\b` anchored at the head of `cs`. -/
def form1At (full abbr : List Char) (cs : List Char) : Option Nat :=
  match cs with
  | [] => none
  | c1 :: rest =>
    if ¬ isDigitC c1 then none
    else
      match rest with
      | [] => none
      | c2 :: rest2 =>
        if isDigitC c2 && monthTail full abbr rest2 then
          some (10 * digitVal c1 + digitVal c2)
        else if monthTail full abbr rest then some (digitVal c1)
        else none

/-- `\s*(\d{1,2})\b` after a month name: greedy two digits, backtracking to one. -/
def digitsTailB (cs : List Char) : Option Nat :=
  let cs2 := dropSpaces cs
  match cs2 with
  | [] => none
  | c1 :: rest =>
    if ¬ isDigitC c1 then none
    else
      match rest with
      | [] => some (digitVal c1)
      | c2 :: rest2 =>
        if isDigitC c2 && wordBoundAfter rest2 then
          some (10 * digitVal c1 + digitVal c2)
        else if wordBoundAfter rest then some (digitVal c1)
        else none

/-- Match `(?:FULL|ABBR)\s*(\d{1,2})\b` anchored at the head of `cs`. -/
def form2At (full abbr : List Char) (cs : List Char) : Option Nat :=
  match (if full.isPrefixOf cs then digitsTailB (cs.drop full.length) else none) with
  | some d => some d
  | none => if abbr.isPrefixOf cs then digitsTailB (cs.drop abbr.length) else none

/-- `re.search`: try the anchored matcher at every position, left to right. -/
def scanOpt {α : Type} (f : List Char → Option α) : List Char → Option α
  | [] => f []
  | c :: rest =>
    match f (c :: rest) with
    | some r => some r
    | none => scanOpt f rest

/-- One iteration of the month loop of `_parse_preferred_datetime`: the
"day month" form first; if it produced no valid date, the "month day" form.
A matched day resolves only when `1 ≤ day ≤ 31` and `datetime(2026, m, day)`
does not raise `ValueError`. Returns the resolved
(`strftime("%Y-%m-%d")`, `dt.weekday()`) pair. -/
def resolveDay (m d : Nat) : Option (String × Nat) :=
  if 1 ≤ d && d ≤ 31 && d ≤ daysInMonth m then some (mkDateStr m d, dateWeekday 2026 m d)
  else none

def tryMonthIdx (cs : List Char) (m : Nat) : Option (String × Nat) :=
  let full := (MONTH_NAMES.getD (m - 1) "").data
  let abbr := (MONTH_ABBREV.getD (m - 1) "").data
  match (match scanOpt (form1At full abbr) cs with
         | some d => resolveDay m d
         | none => none) with
  | some r => some r
  | none =>
    match scanOpt (form2At full abbr) cs with
    | some d => resolveDay m d
    | none => none

/-- The month loop: months January..December, breaking at the first resolved date. -/
def parseDate (cs : List Char) : Option (String × Nat) :=
  (List.range 12).findSome? (fun i => tryMonthIdx cs (i + 1))

/-- Weekday fallback: full names `monday..sunday` in order, then abbreviations,
by substring containment. -/
def weekdaySearch (cs : List Char) : Option Nat :=
  match (List.range 7).findSome?
      (fun i => if (listInfix (WEEKDAY_NAMES.getD i "").data cs) then some i else none) with
  | some i => some i
  | none =>
    (List.range 7).findSome?
      (fun i => if (listInfix (WEEKDAY_ABBREV.getD i "").data cs) then some i else none)

/-! ### Time phrase matcher
`re.search(r"(?:^|\s)(\d{1,2})\s*:?\s*(\d{2})?\s*(am|pm)?(?:\s|$|,)", lowered)`,
then the fallback pair
`re.search(r"\b(\d{1,2})\s*(am|pm)\b", lowered)` (guard) and
`re.search(r"(\d{1,2})\s*(am|pm)", lowered)` (extraction).
The tail after the hour digits is matched with the depth-first
backtracking: every quantifier tries its greedy amount first, every ordered
alternative is tried left to right, and the most recent choice point is
revised first — i.e. nested ordered searches. -/

/-- Possible consumptions of `\s*` in backtracking order (greedy first). -/
def downFrom (n : Nat) : List Nat := (List.range (n + 1)).reverse

/-- Possible consumptions of `:?` (with the colon first when present). -/
def colonOpts (cs : List Char) : List Nat :=
  match cs with
  | ':' :: _ => [1, 0]
  | _ => [0]

def twoDigitsAt (cs : List Char) : Option Nat :=
  match cs with
  | a :: b :: _ => if isDigitC a && isDigitC b then some (10 * digitVal a + digitVal b) else none
  | _ => none

/-- Choices of `(\d{2})?` in backtracking order. -/
def minuteOpts (cs : List Char) : List (Option Nat) :=
  match twoDigitsAt cs with
  | some m => [some m, none]
  | none => [none]

/-- Choices of `(am|pm)?` in backtracking order. -/
def ampmOpts (cs : List Char) : List (Option String) :=
  (if "am".data.isPrefixOf cs then [some "am"] else []) ++
  (if "pm".data.isPrefixOf cs then [some "pm"] else []) ++ [none]

/-- The terminator `(?:\s|$|,)`. -/
def termOk (cs : List Char) : Bool :=
  match cs with
  | [] => true
  | c :: _ => isSpaceC c || c = ','

/-- `\s*:?\s*(\d{2})?\s*(am|pm)?(?:\s|$|,)` after the hour digits, yielding the
captured minutes and am/pm groups of the first successful backtracking path. -/
def timeTail (cs : List Char) : Option (Option Nat × Option String) :=
  (downFrom (leadSpaces cs)).findSome? fun a =>
    let cs1 := cs.drop a
    (colonOpts cs1).findSome? fun b =>
      let cs2 := cs1.drop b
      (downFrom (leadSpaces cs2)).findSome? fun c =>
        let cs3 := cs2.drop c
        (minuteOpts cs3).findSome? fun dm =>
          let cs4 := cs3.drop (if dm.isSome then 2 else 0)
          (downFrom (leadSpaces cs4)).findSome? fun e =>
            let cs5 := cs4.drop e
            (ampmOpts cs5).findSome? fun f =>
              let cs6 := cs5.drop (if f.isSome then 2 else 0)
              if termOk cs6 then some (dm, f) else none

/-- `(\d{1,2})` then the tail, anchored after `(?:^|\s)`: two digits greedily,
backtracking to one. -/
def timeBody (cs : List Char) : Option (Nat × Option Nat × Option String) :=
  match cs with
  | [] => none
  | c1 :: rest =>
    if ¬ isDigitC c1 then none
    else
      match rest with
      | [] => (timeTail []).map (fun p => (digitVal c1, p))
      | c2 :: rest2 =>
        if isDigitC c2 then
          match timeTail rest2 with
          | some p => some (10 * digitVal c1 + digitVal c2, p)
          | none => (timeTail rest).map (fun p => (digitVal c1, p))
        else (timeTail rest).map (fun p => (digitVal c1, p))

/-- Scan for `\s` positions (the second alternative of `(?:^|\s)`). -/
def scanTime1 : List Char → Option (Nat × Option Nat × Option String)
  | [] => none
  | c :: rest =>
    if isSpaceC c then
      match timeBody rest with
      | some r => some r
      | none => scanTime1 rest
    else scanTime1 rest

/-- The first time regex: the `^` alternative at position 0, then `\s`-anchored
positions left to right. -/
def searchTime1 (cs : List Char) : Option (Nat × Option Nat × Option String) :=
  match timeBody cs with
  | some r => some r
  | none => scanTime1 cs

/-- `\s*(am|pm)\b` after the digits of the fallback guard regex. -/
def ampmTailB (cs : List Char) : Bool :=
  let cs2 := dropSpaces cs
  ("am".data.isPrefixOf cs2 && wordBoundAfter (cs2.drop 2)) ||
  ("pm".data.isPrefixOf cs2 && wordBoundAfter (cs2.drop 2))

/-- `(\d{1,2})\s*(am|pm)\b` anchored at the head (the leading `\b` is checked
by the caller). -/
def guardAt (cs : List Char) : Bool :=
  match cs with
  | [] => false
  | c1 :: rest =>
    isDigitC c1 &&
      (match rest with
       | [] => false
       | c2 :: rest2 => if isDigitC c2 then ampmTailB rest2 else ampmTailB rest)

/-- Scan of `\b(\d{1,2})\s*(am|pm)\b`, carrying the previous character for the
leading word boundary. -/
def guardSearch (prev : Option Char) : List Char → Bool
  | [] => false
  | c :: rest =>
    ((match prev with
      | none => true
      | some p => ¬ isWordC p) && guardAt (c :: rest)) || guardSearch (some c) rest

/-- `\s*(am|pm)` with no trailing boundary, for the fallback extraction regex. -/
def ampmAfter (cs : List Char) : Option String :=
  let cs2 := dropSpaces cs
  if "am".data.isPrefixOf cs2 then some "am"
  else if "pm".data.isPrefixOf cs2 then some "pm"
  else none

/-- `(\d{1,2})\s*(am|pm)` anchored at the head of `cs`. -/
def extractAt (cs : List Char) : Option (Nat × String) :=
  match cs with
  | [] => none
  | c1 :: rest =>
    if ¬ isDigitC c1 then none
    else
      match rest with
      | [] => none
      | c2 :: rest2 =>
        if isDigitC c2 then
          match ampmAfter rest2 with
          | some s => some (10 * digitVal c1 + digitVal c2, s)
          | none => (ampmAfter rest).map (fun s => (digitVal c1, s))
        else (ampmAfter rest).map (fun s => (digitVal c1, s))

/-- The hour normalization shared by both time paths: a bare `pm` hour < 12
gains 12 hours, a bare `am` hour of 12 becomes 0, and the result is clamped by
`min(23, max(0, h))` (the `max` is trivial over `Nat`). -/
def normalizeHour (h : Nat) (ampm : String) : Nat :=
  let h2 := if ampm = "pm" ∧ h < 12 then h + 12
            else if ampm = "am" ∧ h = 12 then 0
            else h
  min 23 h2

/-- The minutes-since-midnight result of the whole time-matching block of
`_parse_preferred_datetime` (`int((h + m/60.0) * 60) = 60*h + m` for the
matched two-digit minutes). -/
def timeMinutes (cs : List Char) : Option Nat :=
  match searchTime1 cs with
  | some (h, dm, f) => some (normalizeHour h (f.getD "") * 60 + dm.getD 0)
  | none =>
    if guardSearch none cs then
      match scanOpt extractAt cs with
      | some (h, s) => some (normalizeHour h s * 60)
      | none => none
    else none

/-- The weekday component: the weekday of the resolved date when a date was found,
else the weekday-name search. -/
def weekdayOf (cs : List Char) : Option Nat :=
  match parseDate cs with
  | some (_, wd) => some wd
  | none => weekdaySearch cs

/-- `_parse_preferred_datetime(text)`: returns
(preferred weekday 0-6, preferred minutes since midnight, preferred date). -/
def parse_preferred_datetime (text : String) :
    Option Nat × Option Nat × Option String :=
  if pyStrip text = "" then (none, none, none)
  else
    (weekdayOf (pyStrip (lowerStr text)).data, timeMinutes (pyStrip (lowerStr text)).data,
      (parseDate (pyStrip (lowerStr text)).data).map (fun r => r.1))

/-! ### Slots and the offer engine (src/services/slot_manager.py) -/

/-- An offerable appointment slot: ISO date `YYYY-MM-DD`, 24-hour `HH:MM`,
timezone identifier. -/
structure Slot where
  date : String
  time : String
  timezone : String
deriving DecidableEq, Repr

/-- `int()` on a digit string. -/
def charsToNat (cs : List Char) : Nat := cs.foldl (fun a c => a * 10 + digitVal c) 0

def strToNat (s : String) : Nat := charsToNat s.data

/-- Split a character list at `:` separators (Python `time.split(":")`). -/
def splitColon : List Char → List (List Char)
  | [] => [[]]
  | c :: rest =>
    if c = ':' then [] :: splitColon rest
    else
      match splitColon rest with
      | [] => [[c]]
      | g :: gs => (c :: g) :: gs

/-- Split a character list at `-` separators (`datetime.strptime(date, "%Y-%m-%d")`
consumes exactly the dash-separated year, month, day fields). -/
def splitDash : List Char → List (List Char)
  | [] => [[]]
  | c :: rest =>
    if c = '-' then [] :: splitDash rest
    else
      match splitDash rest with
      | [] => [[c]]
      | g :: gs => (c :: g) :: gs

/-- `Slot.weekday()`: Python weekday of the ISO date of the slot (Monday = 0). -/
def Slot.weekday (s : Slot) : Nat :=
  match splitDash s.date.data with
  | [y, m, d] => dateWeekday (charsToNat y) (charsToNat m) (charsToNat d)
  | _ => 0

/-- `_slot_minutes(slot)`: slot time as minutes since midnight
(`h = int(parts[0])`, `m = int(parts[1]) if len(parts) > 1 else 0`). -/
def slot_minutes (s : Slot) : Nat :=
  match splitColon s.time.data with
  | [] => 0
  | h :: rest =>
    charsToNat h * 60 + (match rest with
                         | [] => 0
                         | m :: _ => charsToNat m)

/-- Python string `<=` (code-point lexicographic). -/
def listLe : List Char → List Char → Bool
  | [], _ => true
  | _ :: _, [] => false
  | a :: as_, b :: bs =>
    if a.toNat < b.toNat then true
    else if b.toNat < a.toNat then false
    else listLe as_ bs

def strLe (a b : String) : Bool := listLe a.data b.data

/-- Comparator of the sort key `s.time`. -/
def leTime (a b : Slot) : Bool := strLe a.time b.time

/-- Comparator of the sort key `(s.date, s.time)` (Python tuple order). -/
def leDateTime (a b : Slot) : Bool :=
  if a.date = b.date then strLe a.time b.time else strLe a.date b.date

def absDiff (a b : Nat) : Nat := max a b - min a b

/-- Comparator of the sort key `abs(_slot_minutes(s) - preferred_minutes)`. -/
def leDist (p : Nat) (a b : Slot) : Bool :=
  decide (absDiff (slot_minutes a) p ≤ absDiff (slot_minutes b) p)

/-- Insert `x` (an element occurring before every element of `l` in the original
list) in front of the first element whose key is not below the key of `x`. -/
def insertLe (le : Slot → Slot → Bool) (x : Slot) : List Slot → List Slot
  | [] => [x]
  | y :: l => if le x y then x :: y :: l else y :: insertLe le x l

/-- Python `list.sort(key=...)`: the stable sort with respect to the total
preorder `le` (stable insertion sort — extensionally the unique stable sort). -/
def sortStable (le : Slot → Slot → Bool) : List Slot → List Slot
  | [] => []
  | x :: l => insertLe le x (sortStable le l)

/-- `offer_slots(preferred_datetime_text=...)` with the candidate slots of
`_load_slots_from_calendar_or_mock()` passed explicitly. Returns up to two
slots: filter by explicit date, else by weekday; rank by proximity to the
preferred time, else by date/time; truncate to two. -/
def offer_slots (all_slots : List Slot) (preferred_datetime_text : Option String) :
    List Slot :=
  let text := preferred_datetime_text.getD ""
  let parsed := parse_preferred_datetime text
  let preferred_weekday := parsed.1
  let preferred_minutes := parsed.2.1
  match parsed.2.2 with
  | some d =>
    let on_date := all_slots.filter (fun s => s.date = d)
    if on_date.isEmpty then []
    else
      (match preferred_minutes with
       | some p => sortStable (leDist p) on_date
       | none => sortStable leTime on_date).take 2
  | none =>
    match preferred_weekday with
    | some w =>
      let on_day := all_slots.filter (fun s => s.weekday = w)
      if on_day.isEmpty then []
      else
        (match preferred_minutes with
         | some p => sortStable (leDist p) on_day
         | none => sortStable leDateTime on_day).take 2
    | none =>
      match preferred_minutes with
      | some p => (sortStable (leDist p) all_slots).take 2
      | none => all_slots.take 2

/-! ### Intent classifier (src/services/intent_classifier.py, settings.INTENTS) -/

/-- The `INTENTS` table, in declaration order. -/
def INTENTS : List (String × List String) :=
  [("book_new", ["book", "schedule", "appointment", "slot", "meeting"]),
   ("reschedule", ["change", "reschedule", "move", "different time", "postpone"]),
   ("cancel", ["cancel", "delete", "remove", "abort"]),
   ("prepare", ["what to bring", "prepare", "documents needed", "what do i need"]),
   ("availability", ["when available", "free slots", "open times", "availability"])]

/-- Classifier output: intent name or none, confidence, and the raw text echoed
verbatim. -/
structure IntentResult where
  intent : Option String
  confidence : Rat
  raw_text : String
deriving DecidableEq, Repr

/-- Keyword-match count of one intent against the lowered text. -/
def intentScore (lowered : String) (kws : List String) : Nat :=
  (kws.filter (fun kw => containsTok lowered (lowerStr kw))).length

/-- The classifier loop: the first intent reaching the strictly highest
keyword-match count, with that count. -/
def winningPair (lowered : String) : Option String × Nat :=
  INTENTS.foldl
    (fun acc p => if acc.2 < intentScore lowered p.2 then (some p.1, intentScore lowered p.2) else acc)
    (none, 0)

/-- `KeywordIntentClassifier.classify(text)`: a total function, no exceptions. -/
def classify (text : String) : IntentResult :=
  let lowered := pyStrip (lowerStr text)
  if lowered = "" then ⟨none, 0, text⟩
  else
    let best := winningPair lowered
    if best.2 = 0 ∨ best.1 = none then ⟨none, 0, text⟩
    else
      ⟨best.1, if best.2 = 1 then (0.4 : Rat) else if best.2 = 2 then 0.7 else 0.9, text⟩

/-! ### Conversation state machine (src/services/conversation_engine.py)

`AgentTurn.text` (the reply prompt) is elided; `step` returns the successor
state and context. `generate_booking_code()` is the parameter `gen`; the slot
source is the parameter `slots`. -/

inductive ConversationState where
  | GREETING
  | DISCLAIMER
  | INTENT_CONFIRMATION
  | TOPIC_COLLECTION
  | DATETIME_COLLECTION
  | SLOT_OFFER
  | CONFIRMATION
  | BOOKING_COMPLETE
  | RESCHEDULE_ASK_CODE
  | CANCEL_ASK_CODE
  | CANCEL_CONFIRM
deriving DecidableEq, Repr

open ConversationState

structure ConversationContext where
  intent : Option String := none
  topic_label : Option String := none
  preferred_datetime_text : Option String := none
  offered_slots : List Slot := []
  chosen_slot_index : Option Nat := none
  booking_code : Option String := none
  existing_booking_code : Option String := none
deriving DecidableEq, Repr

/-- The `TOPICS` taxonomy of settings.py, in declaration order. -/
def TOPICS : List (String × List String) :=
  [("KYC/Onboarding", ["kyc", "onboarding", "verification", "documents", "identity"]),
   ("SIP/Mandates", ["sip", "mandate", "systematic", "recurring", "auto-debit"]),
   ("Statements/Tax Docs", ["statement", "tax", "form 16", "capital gains", "annual statement"]),
   ("Withdrawals & Timelines", ["withdraw", "redeem", "timeline", "when will i get", "payout"]),
   ("Account Changes/Nominee", ["change", "nominee", "bank details", "update", "modify"])]

/-- The negative token d, o, n, apostrophe, t (written via code points). -/
def dontTok : String := ⟨['d', 'o', 'n', Char.ofNat 39, 't']⟩

def disclaimerYesToks : List String := ["yes", "yeah", "ok", "sure", "continue", "go ahead"]

def cancelFamilyToks : List String :=
  ["cancel", "abort", "delete", "remove", "delete booking", "remove booking"]

def rescheduleFamilyToks : List String :=
  ["change booking", "move my slot", "postpone", "different time"]

def bookFamilyToks : List String := ["book", "new slot", "appointment", "schedule a", "book a"]

def upgradeToks : List String := ["schedule", "slot", "meeting"]

def cancelConfirmYesToks : List String :=
  ["yes", "yeah", "confirm", "go ahead", "cancel", "sure", "ok"]

def cancelConfirmNoToks : List String := ["no", dontTok, "do not"]

def firstOptionToks : List String := ["first", "1", "one", "option 1", "slot 1"]

def secondOptionToks : List String := ["second", "2", "two", "option 2", "slot 2"]

def confirmYesToks : List String :=
  ["yes", "yeah", "confirm", "go ahead", "book", "sounds good", "ok", "sure"]

def confirmNoToks : List String := ["no", dontTok, "do not", "change", "different"]

/-- The global rule at the top of `ConversationSession.step`: apply the
classifier guess to `context.intent` only in the intent-selection states and
never once `existing_booking_code` is set. -/
def stepTop (ctx : ConversationContext) (s : ConversationState) (ir : IntentResult) :
    ConversationContext :=
  if ir.intent.isSome ∧ ctx.existing_booking_code = none ∧
      (s = GREETING ∨ s = DISCLAIMER ∨ s = INTENT_CONFIRMATION) then
    { ctx with intent := ir.intent }
  else ctx

def handle_greeting (ctx : ConversationContext) : ConversationState × ConversationContext :=
  (DISCLAIMER, ctx)

def handle_disclaimer (user_text : String) (ctx : ConversationContext) :
    ConversationState × ConversationContext :=
  if anyTok (lowerStr user_text) disclaimerYesToks then (INTENT_CONFIRMATION, ctx)
  else (DISCLAIMER, ctx)

def handle_intent_confirmation (user_text : String) (ir : IntentResult)
    (ctx : ConversationContext) : ConversationState × ConversationContext :=
  let lowered := pyStrip (lowerStr user_text)
  let intent : Option String :=
    if anyTok lowered cancelFamilyToks then some "cancel"
    else if containsTok lowered "reschedule" || anyTok lowered rescheduleFamilyToks then
      some "reschedule"
    else if ir.intent = some "book_new" ∨ anyTok lowered bookFamilyToks then some "book_new"
    else if ir.intent = none ∧ anyTok lowered upgradeToks then some "book_new"
    else ir.intent
  if intent = some "book_new" then (TOPIC_COLLECTION, { ctx with intent := some "book_new" })
  else if intent = some "reschedule" then
    (RESCHEDULE_ASK_CODE, { ctx with intent := some "reschedule" })
  else if intent = some "cancel" then (CANCEL_ASK_CODE, { ctx with intent := some "cancel" })
  else (INTENT_CONFIRMATION, ctx)

def handle_reschedule_ask_code (user_text : String) (ctx : ConversationContext) :
    ConversationState × ConversationContext :=
  if pyStrip user_text = "" then (RESCHEDULE_ASK_CODE, ctx)
  else (DATETIME_COLLECTION, { ctx with existing_booking_code := some (pyStrip user_text) })

def handle_cancel_ask_code (user_text : String) (ctx : ConversationContext) :
    ConversationState × ConversationContext :=
  if pyStrip user_text = "" then (CANCEL_ASK_CODE, ctx)
  else (CANCEL_CONFIRM, { ctx with existing_booking_code := some (pyStrip user_text) })

def handle_cancel_confirm (user_text : String) (ctx : ConversationContext) :
    ConversationState × ConversationContext :=
  let lowered := lowerStr user_text
  if anyTok lowered cancelConfirmYesToks then (BOOKING_COMPLETE, ctx)
  else if anyTok lowered cancelConfirmNoToks then (INTENT_CONFIRMATION, ctx)
  else (CANCEL_CONFIRM, ctx)

/-- `_detect_topic`: the first topic category one of whose keywords occurs in
the lowered text. -/
def detect_topic (user_text : String) : Option String :=
  TOPICS.findSome?
    (fun p => if p.2.any (fun kw => containsTok (lowerStr user_text) (lowerStr kw)) then some p.1
              else none)

def handle_topic (user_text : String) (ctx : ConversationContext) :
    ConversationState × ConversationContext :=
  match detect_topic user_text with
  | none => (TOPIC_COLLECTION, ctx)
  | some label => (DATETIME_COLLECTION, { ctx with topic_label := some label })

def handle_datetime (slots : List Slot) (user_text : String) (ctx : ConversationContext) :
    ConversationState × ConversationContext :=
  let pref : Option String := if pyStrip user_text = "" then none else some (pyStrip user_text)
  let offered := offer_slots slots pref
  (SLOT_OFFER, { ctx with preferred_datetime_text := pref, offered_slots := offered })

def handle_slot_choice (slots : List Slot) (user_text : String) (ctx : ConversationContext) :
    ConversationState × ConversationContext :=
  let lowered := pyStrip (lowerStr user_text)
  let parsed := parse_preferred_datetime user_text
  if (parsed.1.isSome ∨ parsed.2.1.isSome) ∧ lowered.length > 2 then
    let pref := pyStrip user_text
    let offered := offer_slots slots (some pref)
    let ctx2 := { ctx with preferred_datetime_text := some pref, offered_slots := offered }
    if offered.isEmpty then (DATETIME_COLLECTION, ctx2) else (SLOT_OFFER, ctx2)
  else if containsTok lowered "none" || containsTok lowered "neither" then
    (BOOKING_COMPLETE, ctx)
  else if anyTok lowered firstOptionToks then
    if ctx.offered_slots.isEmpty ∨ ctx.offered_slots.length ≤ 0 then (DATETIME_COLLECTION, ctx)
    else (CONFIRMATION, { ctx with chosen_slot_index := some 0 })
  else if anyTok lowered secondOptionToks then
    if ctx.offered_slots.isEmpty ∨ ctx.offered_slots.length ≤ 1 then (DATETIME_COLLECTION, ctx)
    else (CONFIRMATION, { ctx with chosen_slot_index := some 1 })
  else (SLOT_OFFER, ctx)

def handle_confirmation (gen : String) (user_text : String) (ctx : ConversationContext) :
    ConversationState × ConversationContext :=
  let lowered := lowerStr user_text
  if anyTok lowered confirmYesToks then
    if ctx.intent = some "reschedule" then (BOOKING_COMPLETE, ctx)
    else (BOOKING_COMPLETE, { ctx with booking_code := some gen })
  else if anyTok lowered confirmNoToks then (DATETIME_COLLECTION, ctx)
  else (CONFIRMATION, ctx)

/-- `ConversationSession.step(user_text)`: classify, apply the global intent
rule, then dispatch on the current state. -/
def step (slots : List Slot) (gen : String) (s : ConversationState)
    (ctx0 : ConversationContext) (user_text : String) :
    ConversationState × ConversationContext :=
  let ir := classify user_text
  let ctx := stepTop ctx0 s ir
  match s with
  | GREETING => handle_greeting ctx
  | DISCLAIMER => handle_disclaimer user_text ctx
  | INTENT_CONFIRMATION => handle_intent_confirmation user_text ir ctx
  | TOPIC_COLLECTION => handle_topic user_text ctx
  | DATETIME_COLLECTION => handle_datetime slots user_text ctx
  | SLOT_OFFER => handle_slot_choice slots user_text ctx
  | CONFIRMATION => handle_confirmation gen user_text ctx
  | BOOKING_COMPLETE => (BOOKING_COMPLETE, ctx)
  | RESCHEDULE_ASK_CODE => handle_reschedule_ask_code user_text ctx
  | CANCEL_ASK_CODE => handle_cancel_ask_code user_text ctx
  | CANCEL_CONFIRM => handle_cancel_confirm user_text ctx

/-- Run a fresh session over a sequence of user turns. -/
def runTrace (slots : List Slot) (gen : String) (texts : List String) :
    ConversationState × ConversationContext :=
  texts.foldl (fun p t => step slots gen p.1 p.2 t) (GREETING, {})

/-- The states and contexts a session can be in: the initial session, closed
under `step` for arbitrary slot-source answers, generated codes and inputs. -/
inductive Reachable : ConversationState → ConversationContext → Prop where
  | init : Reachable GREETING {}
  | step (slots : List Slot) (gen user_text : String) {s : ConversationState}
      {ctx : ConversationContext} : Reachable s ctx →
      Reachable (step slots gen s ctx user_text).1 (step slots gen s ctx user_text).2

/-- A mock slot source: Tuesday Feb 10 through Saturday Feb 14, 2026, matching
the shape documented in the tests of the repository. -/
def mockSlots : List Slot :=
  [⟨"2026-02-10", "10:00", "IST"⟩, ⟨"2026-02-10", "14:00", "IST"⟩,
   ⟨"2026-02-11", "10:00", "IST"⟩, ⟨"2026-02-11", "15:00", "IST"⟩,
   ⟨"2026-02-12", "11:00", "IST"⟩, ⟨"2026-02-13", "10:00", "IST"⟩,
   ⟨"2026-02-13", "15:00", "IST"⟩, ⟨"2026-02-14", "11:00", "IST"⟩]

/-! ### Order lemmas for the sort comparators -/

/-- Ranking order claimed by the spec when a preferred time is present:
ascending time distance, ties broken by the natural (date, time) order. -/
def lexDist (p : Nat) (a b : Slot) : Prop :=
  absDiff (slot_minutes a) p < absDiff (slot_minutes b) p ∨
  (absDiff (slot_minutes a) p = absDiff (slot_minutes b) p ∧ leDateTime a b = true)

instance (p : Nat) : DecidableRel (lexDist p) := by
  unfold lexDist; infer_instance

/-- The chosen slot index is set and in bounds of the offered slots. -/
def chosenOk (ctx : ConversationContext) : Prop :=
  ∃ i, ctx.chosen_slot_index = some i ∧ i < ctx.offered_slots.length

theorem charToNat_inj {c d : Char} (h : c.toNat = d.toNat) : c = d := by
  have h1 := Char.ofNat_toNat c
  have h2 := Char.ofNat_toNat d
  rw [← h1, ← h2, h]

theorem listLe_total (a : List Char) : ∀ b, listLe a b = true ∨ listLe b a = true := by
  induction a with
  | nil => intro b; left; rfl
  | cons x xs ih =>
    intro b
    cases b with
    | nil => right; rfl
    | cons y ys =>
      simp only [listLe]
      rcases Nat.lt_trichotomy x.toNat y.toNat with h | h | h
      · left; simp [h]
      · have h1 : ¬ x.toNat < y.toNat := by omega
        have h2 : ¬ y.toNat < x.toNat := by omega
        simpa [h1, h2] using ih ys
      · right; simp [h]

theorem listLe_trans (a : List Char) :
    ∀ b c, listLe a b = true → listLe b c = true → listLe a c = true := by
  induction a with
  | nil => intro b c _ _; rfl
  | cons x xs ih =>
    intro b c hab hbc
    cases b with
    | nil => simp [listLe] at hab
    | cons y ys =>
      cases c with
      | nil => simp [listLe] at hbc
      | cons z zs =>
        simp only [listLe] at hab hbc ⊢
        by_cases h1 : x.toNat < y.toNat
        · by_cases h2 : y.toNat < z.toNat
          · have h3 : x.toNat < z.toNat := by omega
            simp [h3]
          · by_cases h2b : z.toNat < y.toNat
            · simp [h2, h2b] at hbc
            · have h3 : x.toNat < z.toNat := by omega
              simp [h3]
        · by_cases h1b : y.toNat < x.toNat
          · simp [h1, h1b] at hab
          · by_cases h2 : y.toNat < z.toNat
            · have h3 : x.toNat < z.toNat := by omega
              simp [h3]
            · by_cases h2b : z.toNat < y.toNat
              · simp [h2, h2b] at hbc
              · have e1 : ¬ x.toNat < z.toNat := by omega
                have e2 : ¬ z.toNat < x.toNat := by omega
                simp [h1, h1b] at hab
                simp [h2, h2b] at hbc
                simp [e1, e2]
                exact ih ys zs hab hbc

theorem listLe_antisymm (a : List Char) :
    ∀ b, listLe a b = true → listLe b a = true → a = b := by
  induction a with
  | nil =>
    intro b _ hba
    cases b with
    | nil => rfl
    | cons y ys => simp [listLe] at hba
  | cons x xs ih =>
    intro b hab hba
    cases b with
    | nil => simp [listLe] at hab
    | cons y ys =>
      simp only [listLe] at hab hba
      rcases Nat.lt_trichotomy x.toNat y.toNat with h | h | h
      · have h2 : ¬ y.toNat < x.toNat := by omega
        simp [h, h2] at hba
      · have h1 : ¬ x.toNat < y.toNat := by omega
        have h2 : ¬ y.toNat < x.toNat := by omega
        simp [h1, h2] at hab hba
        exact congrArg₂ (· :: ·) (charToNat_inj h) (ih ys hab hba)
      · have h2 : ¬ x.toNat < y.toNat := by omega
        simp [h, h2] at hab

theorem strLe_total (a b : String) : strLe a b = true ∨ strLe b a = true :=
  listLe_total a.data b.data

theorem strLe_trans {a b c : String} (h1 : strLe a b = true) (h2 : strLe b c = true) :
    strLe a c = true :=
  listLe_trans a.data b.data c.data h1 h2

theorem strLe_antisymm {a b : String} (h1 : strLe a b = true) (h2 : strLe b a = true) :
    a = b := by
  cases a; cases b
  exact congrArg String.mk (listLe_antisymm _ _ h1 h2)

theorem leTime_total (a b : Slot) : leTime a b = true ∨ leTime b a = true :=
  strLe_total a.time b.time

theorem leTime_trans {a b c : Slot} (h1 : leTime a b = true) (h2 : leTime b c = true) :
    leTime a c = true :=
  strLe_trans h1 h2

theorem leDateTime_total (a b : Slot) : leDateTime a b = true ∨ leDateTime b a = true := by
  unfold leDateTime
  by_cases h : a.date = b.date
  · simp [h]; exact strLe_total a.time b.time
  · have h2 : ¬ b.date = a.date := fun e => h e.symm
    simp [h, h2]; exact strLe_total a.date b.date

theorem leDateTime_trans {a b c : Slot} (h1 : leDateTime a b = true)
    (h2 : leDateTime b c = true) : leDateTime a c = true := by
  unfold leDateTime at h1 h2 ⊢
  by_cases hab : a.date = b.date <;> by_cases hbc : b.date = c.date
  · simp [hab, hbc, hab.trans hbc] at h1 h2 ⊢
    exact strLe_trans h1 h2
  · have hac : ¬ a.date = c.date := fun e => hbc (hab ▸ e)
    simp only [if_pos hab, if_neg hbc, if_neg hac] at h1 h2 ⊢
    exact hab ▸ h2
  · have hac : ¬ a.date = c.date := fun e => hab (e.trans hbc.symm)
    simp only [if_neg hab, if_pos hbc, if_neg hac] at h1 h2 ⊢
    exact hbc ▸ h1
  · by_cases hac : a.date = c.date
    · exfalso
      simp only [if_neg hab, if_neg hbc] at h1 h2
      exact hab (strLe_antisymm h1 (hac ▸ h2))
    · simp only [if_neg hab, if_neg hbc, if_neg hac] at h1 h2 ⊢
      exact strLe_trans h1 h2

theorem leDist_total (p : Nat) (a b : Slot) : leDist p a b = true ∨ leDist p b a = true := by
  unfold leDist
  rcases Nat.le_total (absDiff (slot_minutes a) p) (absDiff (slot_minutes b) p) with h | h
  · left; simpa using h
  · right; simpa using h

theorem leDist_trans {p : Nat} {a b c : Slot} (h1 : leDist p a b = true)
    (h2 : leDist p b c = true) : leDist p a c = true := by
  simp only [leDist, decide_eq_true_eq] at h1 h2 ⊢
  omega

/-! ### Stable sort lemmas -/

theorem mem_insertLe (le : Slot → Slot → Bool) (x z : Slot) (l : List Slot) :
    z ∈ insertLe le x l ↔ z = x ∨ z ∈ l := by
  induction l with
  | nil => simp [insertLe]
  | cons y l ih =>
    simp only [insertLe]
    by_cases h : le x y = true
    · simp [h]
    · simp only [h, if_neg, List.mem_cons, ih, Bool.false_eq_true, if_false]
      tauto

theorem mem_sortStable (le : Slot → Slot → Bool) (z : Slot) (l : List Slot) :
    z ∈ sortStable le l ↔ z ∈ l := by
  induction l with
  | nil => simp [sortStable]
  | cons x l ih => simp [sortStable, mem_insertLe, ih]

theorem pairwise_insertLe (le : Slot → Slot → Bool)
    (htot : ∀ a b, le a b = true ∨ le b a = true)
    (htrans : ∀ a b c, le a b = true → le b c = true → le a c = true)
    (x : Slot) (l : List Slot) (hl : l.Pairwise (fun a b => le a b = true)) :
    (insertLe le x l).Pairwise (fun a b => le a b = true) := by
  induction l with
  | nil => simp [insertLe]
  | cons y l ih =>
    simp only [insertLe]
    rcases List.pairwise_cons.mp hl with ⟨hy, hl2⟩
    by_cases h : le x y = true
    · rw [if_pos h]
      refine List.pairwise_cons.mpr ⟨?_, hl⟩
      intro z hz
      rcases List.mem_cons.mp hz with rfl | hz2
      · exact h
      · exact htrans x y z h (hy z hz2)
    · have hyx : le y x = true := (htot x y).resolve_left h
      simp only [h, Bool.false_eq_true, if_false]
      refine List.pairwise_cons.mpr ⟨?_, ih hl2⟩
      intro z hz
      rcases (mem_insertLe le x z l).mp hz with rfl | hz2
      · exact hyx
      · exact hy z hz2

theorem pairwise_sortStable (le : Slot → Slot → Bool)
    (htot : ∀ a b, le a b = true ∨ le b a = true)
    (htrans : ∀ a b c, le a b = true → le b c = true → le a c = true)
    (l : List Slot) : (sortStable le l).Pairwise (fun a b => le a b = true) := by
  induction l with
  | nil => simp [sortStable]
  | cons x l ih => exact pairwise_insertLe le htot htrans x (sortStable le l) ih


theorem pairwise_lex_insertLe (p : Nat) (x : Slot) (l : List Slot)
    (hl : l.Pairwise (lexDist p)) (hx : ∀ z ∈ l, leDateTime x z = true) :
    (insertLe (leDist p) x l).Pairwise (lexDist p) := by
  induction l with
  | nil => simp [insertLe]
  | cons y l ih =>
    simp only [insertLe]
    rcases List.pairwise_cons.mp hl with ⟨hy, hl2⟩
    by_cases h : leDist p x y = true
    · rw [if_pos h]
      have hk : absDiff (slot_minutes x) p ≤ absDiff (slot_minutes y) p := by
        simpa [leDist] using h
      refine List.pairwise_cons.mpr ⟨?_, hl⟩
      intro z hz
      rcases List.mem_cons.mp hz with rfl | hz2
      · rcases Nat.lt_or_eq_of_le hk with hlt | heq
        · exact Or.inl hlt
        · exact Or.inr ⟨heq, hx z (List.mem_cons_self _ _)⟩
      · have hyz : absDiff (slot_minutes y) p ≤ absDiff (slot_minutes z) p := by
          rcases hy z hz2 with hlt | ⟨heq, _⟩
          · exact Nat.le_of_lt hlt
          · exact Nat.le_of_eq heq
        rcases Nat.lt_or_eq_of_le (Nat.le_trans hk hyz) with hlt | heq
        · exact Or.inl hlt
        · exact Or.inr ⟨heq, hx z (List.mem_cons_of_mem _ hz2)⟩
    · have hyx : absDiff (slot_minutes y) p < absDiff (slot_minutes x) p := by
        simp only [leDist, decide_eq_true_eq] at h
        omega
      simp only [h, Bool.false_eq_true, if_false]
      refine List.pairwise_cons.mpr ⟨?_, ih hl2 (fun z hz => hx z (List.mem_cons_of_mem _ hz))⟩
      intro z hz
      rcases (mem_insertLe (leDist p) x z l).mp hz with rfl | hz2
      · exact Or.inl hyx
      · exact hy z hz2

theorem pairwise_lex_sortStable (p : Nat) (l : List Slot)
    (hsec : l.Pairwise (fun a b => leDateTime a b = true)) :
    (sortStable (leDist p) l).Pairwise (lexDist p) := by
  induction l with
  | nil => simp [sortStable]
  | cons x l ih =>
    rcases List.pairwise_cons.mp hsec with ⟨hx, hsec2⟩
    exact pairwise_lex_insertLe p x (sortStable (leDist p) l) (ih hsec2)
      (fun z hz => hx z ((mem_sortStable (leDist p) z l).mp hz))

/-! ### The parsed date determines its weekday on slots of the same date -/

theorem charsToNat_pad2 : ∀ n < 100, charsToNat (pad2 n) = n := by decide

theorem pad2_noDash : ∀ n < 100, '-' ∉ pad2 n := by decide

theorem splitDash_of_noDash (xs : List Char) (h : '-' ∉ xs) : splitDash xs = [xs] := by
  induction xs with
  | nil => rfl
  | cons c rest ih =>
    have hc : ¬ c = '-' := fun e => h (e ▸ List.mem_cons_self _ _)
    have hr : '-' ∉ rest := fun e => h (List.mem_cons_of_mem _ e)
    simp only [splitDash, hc, if_false, ih hr]

theorem splitDash_append (xs r : List Char) (h : '-' ∉ xs) :
    splitDash (xs ++ '-' :: r) = xs :: splitDash r := by
  induction xs with
  | nil => simp [splitDash]
  | cons c rest ih =>
    have hc : ¬ c = '-' := fun e => h (e ▸ List.mem_cons_self _ _)
    have hr : '-' ∉ rest := fun e => h (List.mem_cons_of_mem _ e)
    simp only [List.cons_append, splitDash, hc, if_false, List.append_eq]
    rw [ih hr]

theorem weekday_of_mkDateStr (s : Slot) (m d : Nat) (hm : m < 100) (hd : d < 100)
    (h : s.date = mkDateStr m d) : s.weekday = dateWeekday 2026 m d := by
  have hsplit : splitDash (mkDateStr m d).data = ["2026".data, pad2 m, pad2 d] := by
    show splitDash ("2026".data ++ '-' :: (pad2 m ++ '-' :: pad2 d)) =
      ["2026".data, pad2 m, pad2 d]
    rw [splitDash_append "2026".data (pad2 m ++ '-' :: pad2 d) (by decide),
        splitDash_append (pad2 m) (pad2 d) (pad2_noDash m hm),
        splitDash_of_noDash (pad2 d) (pad2_noDash d hd)]
  unfold Slot.weekday
  rw [h, hsplit]
  show dateWeekday (charsToNat "2026".data) (charsToNat (pad2 m)) (charsToNat (pad2 d)) =
    dateWeekday 2026 m d
  have h2026 : charsToNat "2026".data = 2026 := by decide
  rw [h2026, charsToNat_pad2 m hm, charsToNat_pad2 d hd]

theorem resolveDay_spec {m d : Nat} {ds : String} {wd : Nat}
    (h : resolveDay m d = some (ds, wd)) :
    1 ≤ d ∧ d ≤ 31 ∧ ds = mkDateStr m d ∧ wd = dateWeekday 2026 m d := by
  unfold resolveDay at h
  split at h
  · rename_i hg
    simp only [Bool.and_eq_true, decide_eq_true_eq] at hg
    injection h with h2
    injection h2 with h3 h4
    exact ⟨hg.1.1, hg.1.2, h3.symm, h4.symm⟩
  · cases h

theorem tryMonthIdx_spec {cs : List Char} {m : Nat} {ds : String} {wd : Nat}
    (h : tryMonthIdx cs m = some (ds, wd)) :
    ∃ d, 1 ≤ d ∧ d ≤ 31 ∧ ds = mkDateStr m d ∧ wd = dateWeekday 2026 m d := by
  simp only [tryMonthIdx] at h
  split at h
  · rename_i r h1
    split at h1
    · rename_i d1 _
      injection h with h2
      exact ⟨d1, resolveDay_spec (h1.trans (congrArg some h2))⟩
    · cases h1
  · split at h
    · rename_i d2 _
      exact ⟨d2, resolveDay_spec h⟩
    · cases h

theorem parseDate_spec {cs : List Char} {ds : String} {wd : Nat}
    (h : parseDate cs = some (ds, wd)) :
    ∃ m d, 1 ≤ m ∧ m ≤ 12 ∧ 1 ≤ d ∧ d ≤ 31 ∧ ds = mkDateStr m d ∧
      wd = dateWeekday 2026 m d := by
  obtain ⟨i, hi, hf⟩ := List.exists_of_findSome?_eq_some h
  obtain ⟨d, hd⟩ := tryMonthIdx_spec hf
  have hir : i < 12 := List.mem_range.mp hi
  exact ⟨i + 1, d, by omega, by omega, hd.1, hd.2.1, hd.2.2.1, hd.2.2.2⟩

/-- When the parser reports an explicit date, the date string is the
`strftime` rendering of a resolved 2026 calendar day and the reported weekday
is the weekday of that day. -/
theorem parse_date_shape {text : String} {pw pm : Option Nat} {ds : String}
    (hp : parse_preferred_datetime text = (pw, pm, some ds)) :
    ∃ m d, 1 ≤ m ∧ m ≤ 12 ∧ 1 ≤ d ∧ d ≤ 31 ∧ ds = mkDateStr m d ∧
      pw = some (dateWeekday 2026 m d) := by
  unfold parse_preferred_datetime at hp
  split at hp
  · exact absurd (congrArg (fun r => r.2.2) hp) (by simp)
  · rcases hD : parseDate (pyStrip (lowerStr text)).data with _ | ⟨ds0, wd0⟩
    · rw [hD] at hp
      exact absurd (congrArg (fun r => r.2.2) hp) (by simp)
    · rw [weekdayOf, hD] at hp
      obtain ⟨m, d, hm1, hm2, hd1, hd2, hds, hwd⟩ := parseDate_spec hD
      have h1 : pw = some wd0 := (congrArg (fun r => r.1) hp).symm
      have h3 : some ds0 = some ds := by
        have := congrArg (fun r => r.2.2) hp
        simpa using this
      have h4 : ds0 = ds := by injection h3
      exact ⟨m, d, hm1, hm2, hd1, hd2, h4 ▸ hds, hwd ▸ h1⟩

/-- Claim C5: an explicit parsed date with no slot on that exact date yields the
empty offer (no fallback to other dates); a parsed weekday with no slot on that
weekday yields the empty offer (no substitution of other days). -/
theorem c5_theorem (l : List Slot) (t : Option String) :
    (∀ ds, (parse_preferred_datetime (t.getD "")).2.2 = some ds →
      (∀ s ∈ l, s.date ≠ ds) → offer_slots l t = []) ∧
    (∀ w, (parse_preferred_datetime (t.getD "")).1 = some w →
      (∀ s ∈ l, s.weekday ≠ w) → offer_slots l t = []) := by
  constructor
  · intro ds hd hno
    rcases hp : parse_preferred_datetime (t.getD "") with ⟨pw, pmin, pd⟩
    rw [hp] at hd
    have hpd : pd = some ds := hd
    subst hpd
    have hf : l.filter (fun s => s.date = ds) = [] :=
      List.filter_eq_nil_iff.mpr (fun s hs => by simpa using hno s hs)
    simp [offer_slots, hp, hf]
  · intro w hw hno
    rcases hp : parse_preferred_datetime (t.getD "") with ⟨pw, pmin, pd⟩
    have hpw : pw = some w := by rw [hp] at hw; exact hw
    subst hpw
    cases pd with
    | none =>
      have hf : l.filter (fun s => s.weekday = w) = [] :=
        List.filter_eq_nil_iff.mpr (fun s hs => by simpa using hno s hs)
      simp [offer_slots, hp, hf]
    | some ds =>
      obtain ⟨m, d, hm1, hm2, hd1, hd2, hds, hwd⟩ := parse_date_shape hp
      have hw2 : w = dateWeekday 2026 m d := by injection hwd
      have hf : l.filter (fun s => s.date = ds) = [] := by
        refine List.filter_eq_nil_iff.mpr (fun s hs => ?_)
        simp only [decide_eq_true_eq]
        intro he
        have hwk : s.weekday = dateWeekday 2026 m d :=
          weekday_of_mkDateStr s m d (by omega) (by omega) (he.trans (by rw [hds]))
        exact hno s hs (hwk.trans hw2.symm)
      simp [offer_slots, hp, hf]

/-- Witness for C5: "20 Feb" parses to the date 2026-02-20 (a Friday), and a
slot list containing only Tuesday Feb 10 yields the empty offer on both the
explicit-date and the weekday ("Monday") conditions. -/
theorem c5_witness :
    offer_slots [Slot.mk "2026-02-10" "10:00" "IST"] (some "20 Feb") = [] ∧
    offer_slots [Slot.mk "2026-02-10" "10:00" "IST"] (some "Monday") = [] := by
  constructor
  · exact (c5_theorem _ _).1 "2026-02-20" (by decide) (by decide)
  · exact (c5_theorem _ _).2 0 (by decide) (by decide)

/-! ### Structural lemmas about `stepTop` and the handlers -/

theorem stepTop_of_not_intent_state {ctx : ConversationContext} {s : ConversationState}
    {ir : IntentResult} (h : ¬(s = GREETING ∨ s = DISCLAIMER ∨ s = INTENT_CONFIRMATION)) :
    stepTop ctx s ir = ctx := by
  unfold stepTop
  rw [if_neg]
  rintro ⟨-, -, h3⟩
  exact h h3

theorem stepTop_of_existing {ctx : ConversationContext} {s : ConversationState}
    {ir : IntentResult} (h : ctx.existing_booking_code ≠ none) : stepTop ctx s ir = ctx := by
  unfold stepTop
  rw [if_neg]
  rintro ⟨-, h2, -⟩
  exact h h2

theorem stepTop_cases (ctx : ConversationContext) (s : ConversationState) (ir : IntentResult) :
    stepTop ctx s ir = ctx ∨ stepTop ctx s ir = { ctx with intent := ir.intent } := by
  unfold stepTop
  split
  · exact Or.inr rfl
  · exact Or.inl rfl

theorem stepTop_preserves (ctx : ConversationContext) (s : ConversationState)
    (ir : IntentResult) :
    (stepTop ctx s ir).booking_code = ctx.booking_code ∧
    (stepTop ctx s ir).chosen_slot_index = ctx.chosen_slot_index ∧
    (stepTop ctx s ir).offered_slots = ctx.offered_slots ∧
    (stepTop ctx s ir).existing_booking_code = ctx.existing_booking_code := by
  rcases stepTop_cases ctx s ir with h | h <;> rw [h] <;> exact ⟨rfl, rfl, rfl, rfl⟩

theorem handle_intent_confirmation_shape (t : String) (ir : IntentResult)
    (ctx : ConversationContext) :
    (handle_intent_confirmation t ir ctx).1 ≠ CONFIRMATION ∧
    (handle_intent_confirmation t ir ctx).1 ≠ BOOKING_COMPLETE ∧
    (handle_intent_confirmation t ir ctx).2.booking_code = ctx.booking_code ∧
    (handle_intent_confirmation t ir ctx).2.chosen_slot_index = ctx.chosen_slot_index ∧
    (handle_intent_confirmation t ir ctx).2.offered_slots = ctx.offered_slots ∧
    (handle_intent_confirmation t ir ctx).2.existing_booking_code =
      ctx.existing_booking_code := by
  unfold handle_intent_confirmation
  try dsimp only
  split_ifs <;> exact ⟨by simp, by simp, rfl, rfl, rfl, rfl⟩

theorem handle_topic_shape (t : String) (ctx : ConversationContext) :
    (handle_topic t ctx).1 ≠ CONFIRMATION ∧
    (handle_topic t ctx).2.intent = ctx.intent ∧
    (handle_topic t ctx).2.booking_code = ctx.booking_code := by
  unfold handle_topic
  split <;> exact ⟨by simp, rfl, rfl⟩

theorem handle_datetime_shape (slots : List Slot) (t : String) (ctx : ConversationContext) :
    (handle_datetime slots t ctx).1 = SLOT_OFFER ∧
    (handle_datetime slots t ctx).2.intent = ctx.intent ∧
    (handle_datetime slots t ctx).2.booking_code = ctx.booking_code ∧
    (handle_datetime slots t ctx).2.existing_booking_code = ctx.existing_booking_code :=
  ⟨rfl, rfl, rfl, rfl⟩

theorem handle_slot_choice_shape (slots : List Slot) (t : String)
    (ctx : ConversationContext) :
    (handle_slot_choice slots t ctx).2.intent = ctx.intent ∧
    (handle_slot_choice slots t ctx).2.booking_code = ctx.booking_code ∧
    (handle_slot_choice slots t ctx).2.existing_booking_code = ctx.existing_booking_code := by
  unfold handle_slot_choice
  try dsimp only
  split_ifs <;> exact ⟨rfl, rfl, rfl⟩

theorem handle_slot_choice_confirmation (slots : List Slot) (t : String)
    (ctx : ConversationContext)
    (h : (handle_slot_choice slots t ctx).1 = CONFIRMATION) :
    ∃ i, (handle_slot_choice slots t ctx).2.chosen_slot_index = some i ∧
      i < (handle_slot_choice slots t ctx).2.offered_slots.length := by
  unfold handle_slot_choice at h ⊢
  dsimp only at h ⊢
  split_ifs at h ⊢ with h1 h2 h3 h4 h5 h6 h7
  all_goals try (simp at h)
  · refine ⟨0, rfl, ?_⟩
    show 0 < ctx.offered_slots.length
    rcases Nat.eq_zero_or_pos ctx.offered_slots.length with hz | hp
    · exact absurd (Or.inl (List.isEmpty_iff_length_eq_zero.mpr hz)) h5
    · exact hp
  · refine ⟨1, rfl, ?_⟩
    show 1 < ctx.offered_slots.length
    rcases Nat.lt_or_ge 1 ctx.offered_slots.length with hp | hz
    · exact hp
    · exact absurd (Or.inr hz) h7

theorem handle_confirmation_shape (gen t : String) (ctx : ConversationContext) :
    (handle_confirmation gen t ctx).2.intent = ctx.intent ∧
    (handle_confirmation gen t ctx).2.chosen_slot_index = ctx.chosen_slot_index ∧
    (handle_confirmation gen t ctx).2.offered_slots = ctx.offered_slots ∧
    (handle_confirmation gen t ctx).2.existing_booking_code = ctx.existing_booking_code := by
  unfold handle_confirmation
  try dsimp only
  split_ifs <;> exact ⟨rfl, rfl, rfl, rfl⟩

theorem handle_confirmation_booking (gen t : String) (ctx : ConversationContext) :
    (handle_confirmation gen t ctx).2.booking_code = ctx.booking_code ∨
    ((handle_confirmation gen t ctx).2.booking_code = some gen ∧
      (handle_confirmation gen t ctx).1 = BOOKING_COMPLETE ∧
      ctx.intent ≠ some "reschedule" ∧
      (handle_confirmation gen t ctx).2 = { ctx with booking_code := some gen }) := by
  unfold handle_confirmation
  try dsimp only
  split_ifs with h1 h2 h3
  · exact Or.inl rfl
  · exact Or.inr ⟨rfl, rfl, h2, rfl⟩
  · exact Or.inl rfl
  · exact Or.inl rfl

theorem handle_cancel_confirm_shape (t : String) (ctx : ConversationContext) :
    (handle_cancel_confirm t ctx).1 ≠ CONFIRMATION ∧
    (handle_cancel_confirm t ctx).2 = ctx := by
  unfold handle_cancel_confirm
  try dsimp only
  split_ifs <;> exact ⟨by simp, rfl⟩

theorem handle_ask_code_shape (t : String) (ctx : ConversationContext) :
    (handle_reschedule_ask_code t ctx).1 ≠ CONFIRMATION ∧
    (handle_reschedule_ask_code t ctx).2.intent = ctx.intent ∧
    (handle_reschedule_ask_code t ctx).2.booking_code = ctx.booking_code ∧
    (handle_cancel_ask_code t ctx).1 ≠ CONFIRMATION ∧
    (handle_cancel_ask_code t ctx).2.intent = ctx.intent ∧
    (handle_cancel_ask_code t ctx).2.booking_code = ctx.booking_code := by
  unfold handle_reschedule_ask_code handle_cancel_ask_code
  try dsimp only
  split_ifs <;> exact ⟨by simp, rfl, rfl, by simp, rfl, rfl⟩

theorem handle_disclaimer_snd (t : String) (ctx : ConversationContext) :
    (handle_disclaimer t ctx).2 = ctx := by
  unfold handle_disclaimer
  split_ifs <;> rfl

theorem handle_confirmation_stay (gen t : String) (c : ConversationContext)
    (h : (handle_confirmation gen t c).1 = CONFIRMATION) :
    (handle_confirmation gen t c).2 = c := by
  unfold handle_confirmation at h ⊢
  try dsimp only at h ⊢
  split_ifs at h ⊢
  rfl

/-- Outside INTENT_CONFIRMATION, whenever the global rule does not fire, one
step leaves `context.intent` unchanged: no other handler writes it. -/
theorem step_intent_invariant (slots : List Slot) (gen : String) (s : ConversationState)
    (ctx : ConversationContext) (text : String)
    (hTop : stepTop ctx s (classify text) = ctx) (hs : s ≠ INTENT_CONFIRMATION) :
    (step slots gen s ctx text).2.intent = ctx.intent := by
  cases s with
  | GREETING =>
    show (handle_greeting (stepTop ctx GREETING (classify text))).2.intent = ctx.intent
    rw [hTop]
    rfl
  | DISCLAIMER =>
    show (handle_disclaimer text (stepTop ctx DISCLAIMER (classify text))).2.intent = ctx.intent
    rw [hTop, handle_disclaimer_snd]
  | INTENT_CONFIRMATION => exact absurd rfl hs
  | TOPIC_COLLECTION =>
    show (handle_topic text (stepTop ctx TOPIC_COLLECTION (classify text))).2.intent = ctx.intent
    rw [hTop]
    exact (handle_topic_shape text ctx).2.1
  | DATETIME_COLLECTION =>
    show (handle_datetime slots text
      (stepTop ctx DATETIME_COLLECTION (classify text))).2.intent = ctx.intent
    rw [hTop]
    exact (handle_datetime_shape slots text ctx).2.1
  | SLOT_OFFER =>
    show (handle_slot_choice slots text
      (stepTop ctx SLOT_OFFER (classify text))).2.intent = ctx.intent
    rw [hTop]
    exact (handle_slot_choice_shape slots text ctx).1
  | CONFIRMATION =>
    show (handle_confirmation gen text
      (stepTop ctx CONFIRMATION (classify text))).2.intent = ctx.intent
    rw [hTop]
    exact (handle_confirmation_shape gen text ctx).1
  | BOOKING_COMPLETE =>
    show (stepTop ctx BOOKING_COMPLETE (classify text)).intent = ctx.intent
    rw [hTop]
  | RESCHEDULE_ASK_CODE =>
    show (handle_reschedule_ask_code text
      (stepTop ctx RESCHEDULE_ASK_CODE (classify text))).2.intent = ctx.intent
    rw [hTop]
    exact (handle_ask_code_shape text ctx).2.1
  | CANCEL_ASK_CODE =>
    show (handle_cancel_ask_code text
      (stepTop ctx CANCEL_ASK_CODE (classify text))).2.intent = ctx.intent
    rw [hTop]
    exact (handle_ask_code_shape text ctx).2.2.2.2.1
  | CANCEL_CONFIRM =>
    show (handle_cancel_confirm text
      (stepTop ctx CANCEL_CONFIRM (classify text))).2.intent = ctx.intent
    rw [hTop, (handle_cancel_confirm_shape text ctx).2]

/-- Claim C2 (amended): the global rule applies the classifier guess only in
GREETING/DISCLAIMER/INTENT_CONFIRMATION and never while `existing_booking_code`
is set — concretely, a step taken in any other state leaves `context.intent`
unchanged, and a step taken while `existing_booking_code` is set leaves it
unchanged in every state except INTENT_CONFIRMATION, whose handler may still
adopt the classifier guess (see the counterexample). -/
theorem c2_theorem (slots : List Slot) (gen : String) (s : ConversationState)
    (ctx : ConversationContext) (text : String) :
    (s ≠ GREETING → s ≠ DISCLAIMER → s ≠ INTENT_CONFIRMATION →
      (step slots gen s ctx text).2.intent = ctx.intent) ∧
    (ctx.existing_booking_code.isSome = true → s ≠ INTENT_CONFIRMATION →
      (step slots gen s ctx text).2.intent = ctx.intent) := by
  constructor
  · intro h1 h2 h3
    refine step_intent_invariant slots gen s ctx text
      (stepTop_of_not_intent_state ?_) h3
    rintro (h | h | h)
    exacts [h1 h, h2 h, h3 h]
  · intro he hs
    refine step_intent_invariant slots gen s ctx text (stepTop_of_existing ?_) hs
    intro hn
    rw [hn] at he
    cases he

/-- Counterexample to C2 as frozen: after an abandoned cancellation
(["", "yes", "cancel", "NL-X999", "no"]) the session sits in
INTENT_CONFIRMATION with `existing_booking_code = "NL-X999"` and
`intent = "cancel"`; the next input "meeting" matches no book-family token, yet
the handler adopts the classifier guess `book_new` into `context.intent`
while `existing_booking_code` is set. -/
theorem c2_counterexample :
    (runTrace mockSlots "NL-A742" ["", "yes", "cancel", "NL-X999", "no"]).1 =
      INTENT_CONFIRMATION ∧
    (runTrace mockSlots "NL-A742" ["", "yes", "cancel", "NL-X999", "no"]).2.existing_booking_code =
      some "NL-X999" ∧
    (runTrace mockSlots "NL-A742" ["", "yes", "cancel", "NL-X999", "no"]).2.intent =
      some "cancel" ∧
    (classify "meeting").intent = some "book_new" ∧
    anyTok (pyStrip (lowerStr "meeting")) bookFamilyToks = false ∧
    (runTrace mockSlots "NL-A742" ["", "yes", "cancel", "NL-X999", "no", "meeting"]).2.intent =
      some "book_new" := by
  decide

/-- Witness for C2: a step taken in SLOT_OFFER while a booking code is pending
does not touch the stored intent. -/
theorem c2_witness :
    (step ([] : List Slot) "g" SLOT_OFFER
      { intent := some "cancel", existing_booking_code := some "NL-A742" } "book").2.intent =
      some "cancel" :=
  (c2_theorem [] "g" SLOT_OFFER
    { intent := some "cancel", existing_booking_code := some "NL-A742" } "book").2
    (by decide) (by decide)

/-- Claim C3 (amended): provided `existing_booking_code` is unset when the
confirmation occurs, a completed new booking never has both codes set; a
confirmed reschedule and a confirmed cancellation never generate a booking
code. (After an abandoned reschedule/cancel flow the guard fails: see the
counterexample.) -/
theorem c3_theorem (slots : List Slot) (gen : String) (ctx : ConversationContext)
    (text : String) :
    (ctx.existing_booking_code = none →
      ¬((step slots gen CONFIRMATION ctx text).2.booking_code.isSome = true ∧
        (step slots gen CONFIRMATION ctx text).2.existing_booking_code.isSome = true)) ∧
    (ctx.intent = some "reschedule" →
      (step slots gen CONFIRMATION ctx text).2.booking_code = ctx.booking_code) ∧
    (step slots gen CANCEL_CONFIRM ctx text).2.booking_code = ctx.booking_code := by
  have hTop1 : stepTop ctx CONFIRMATION (classify text) = ctx :=
    stepTop_of_not_intent_state (by decide)
  have hTop2 : stepTop ctx CANCEL_CONFIRM (classify text) = ctx :=
    stepTop_of_not_intent_state (by decide)
  refine ⟨?_, ?_, ?_⟩
  · rintro hex ⟨hb, he⟩
    have h1 : (step slots gen CONFIRMATION ctx text).2.existing_booking_code = none := by
      show (handle_confirmation gen text
        (stepTop ctx CONFIRMATION (classify text))).2.existing_booking_code = none
      rw [hTop1, (handle_confirmation_shape gen text ctx).2.2.2, hex]
    rw [h1] at he
    cases he
  · intro hint
    show (handle_confirmation gen text
      (stepTop ctx CONFIRMATION (classify text))).2.booking_code = ctx.booking_code
    rw [hTop1]
    rcases handle_confirmation_booking gen text ctx with h | ⟨-, -, hne, -⟩
    · exact h
    · exact absurd hint hne
  · show (handle_cancel_confirm text
      (stepTop ctx CANCEL_CONFIRM (classify text))).2.booking_code = ctx.booking_code
    rw [hTop2, (handle_cancel_confirm_shape text ctx).2]

/-- Counterexample to C3 as frozen: an abandoned cancellation followed by a
completed new booking reaches BOOKING_COMPLETE through the new-booking
confirmation with BOTH `booking_code` and `existing_booking_code` set. -/
theorem c3_counterexample :
    (runTrace mockSlots "NL-A742"
      ["", "yes", "cancel", "NL-X999", "no", "book new", "kyc", "Tuesday", "first", "yes"]).1 =
      BOOKING_COMPLETE ∧
    (runTrace mockSlots "NL-A742"
      ["", "yes", "cancel", "NL-X999", "no", "book new", "kyc", "Tuesday", "first", "yes"]).2.intent =
      some "book_new" ∧
    (runTrace mockSlots "NL-A742"
      ["", "yes", "cancel", "NL-X999", "no", "book new", "kyc", "Tuesday", "first", "yes"]).2.booking_code =
      some "NL-A742" ∧
    (runTrace mockSlots "NL-A742"
      ["", "yes", "cancel", "NL-X999", "no", "book new", "kyc", "Tuesday", "first", "yes"]).2.existing_booking_code =
      some "NL-X999" := by
  decide

/-- Witness for C3: a confirmed new booking in a session that never stored an
existing code does not end with both codes set. -/
theorem c3_witness :
    ¬(((step ([] : List Slot) "NL-A742" CONFIRMATION
        { intent := some "book_new" } "yes").2.booking_code.isSome = true) ∧
      ((step ([] : List Slot) "NL-A742" CONFIRMATION
        { intent := some "book_new" } "yes").2.existing_booking_code.isSome = true)) :=
  (c3_theorem [] "NL-A742" { intent := some "book_new" } "yes").1 rfl

/-- Claim C6: on an affirmative input in CONFIRMATION, a reschedule keeps the
context untouched (existing code kept, no new booking code) and completes;
otherwise a new booking code is stored and the booking completes. The scenario of the spec:
the sequence ["", "yes", "reschedule", "NL-A742", "Wednesday 3pm", "first", "yes"]
ends in BOOKING_COMPLETE with `existing_booking_code = "NL-A742"` and
`booking_code` unset. -/
theorem c6_theorem (slots : List Slot) (gen : String) (ctx : ConversationContext)
    (text : String) (hyes : anyTok (lowerStr text) confirmYesToks = true) :
    ((ctx.intent = some "reschedule" →
        step slots gen CONFIRMATION ctx text = (BOOKING_COMPLETE, ctx)) ∧
      (ctx.intent ≠ some "reschedule" →
        step slots gen CONFIRMATION ctx text =
          (BOOKING_COMPLETE, { ctx with booking_code := some gen }))) ∧
    (runTrace mockSlots "NL-B123"
        ["", "yes", "reschedule", "NL-A742", "Wednesday 3pm", "first", "yes"]).1 =
      BOOKING_COMPLETE ∧
    (runTrace mockSlots "NL-B123"
        ["", "yes", "reschedule", "NL-A742", "Wednesday 3pm", "first", "yes"]).2.existing_booking_code =
      some "NL-A742" ∧
    (runTrace mockSlots "NL-B123"
        ["", "yes", "reschedule", "NL-A742", "Wednesday 3pm", "first", "yes"]).2.booking_code =
      none := by
  refine ⟨?_, by decide, by decide, by decide⟩
  have hTop : stepTop ctx CONFIRMATION (classify text) = ctx :=
    stepTop_of_not_intent_state (by decide)
  have hstep : step slots gen CONFIRMATION ctx text = handle_confirmation gen text ctx := by
    show handle_confirmation gen text (stepTop ctx CONFIRMATION (classify text)) = _
    rw [hTop]
  constructor
  · intro hint
    rw [hstep]
    unfold handle_confirmation
    try dsimp only
    rw [if_pos hyes, if_pos hint]
  · intro hint
    rw [hstep]
    unfold handle_confirmation
    try dsimp only
    rw [if_pos hyes, if_neg hint]

/-- Witness for C6: a reschedule confirmation completes without generating a
code, keeping the stored existing code. -/
theorem c6_witness :
    step ([] : List Slot) "NL-B123" CONFIRMATION
      { intent := some "reschedule", existing_booking_code := some "NL-A742" } "yes" =
      (BOOKING_COMPLETE,
        { intent := some "reschedule", existing_booking_code := some "NL-A742" }) :=
  ((c6_theorem [] "NL-B123"
    { intent := some "reschedule", existing_booking_code := some "NL-A742" } "yes"
    (by decide)).1).1 rfl

/-- Claim C1 (amended): in SLOT_OFFER, a first-option token selects index 0 and
a second-option token selects index 1 (moving to CONFIRMATION), provided the
text does not itself parse as a new weekday/date/time preference longer than
two characters, does not contain "none"/"neither", and enough slots are on
offer (one for the first option, two for the second). -/
theorem c1_theorem (slots : List Slot) (gen : String) (ctx : ConversationContext)
    (text : String) (hne : ctx.offered_slots ≠ [])
    (hpref : ¬(((parse_preferred_datetime text).1.isSome = true ∨
        (parse_preferred_datetime text).2.1.isSome = true) ∧
      (pyStrip (lowerStr text)).length > 2))
    (hnone : containsTok (pyStrip (lowerStr text)) "none" = false)
    (hneither : containsTok (pyStrip (lowerStr text)) "neither" = false) :
    (anyTok (pyStrip (lowerStr text)) firstOptionToks = true →
      (step slots gen SLOT_OFFER ctx text).1 = CONFIRMATION ∧
      (step slots gen SLOT_OFFER ctx text).2.chosen_slot_index = some 0) ∧
    (anyTok (pyStrip (lowerStr text)) firstOptionToks = false →
      anyTok (pyStrip (lowerStr text)) secondOptionToks = true →
      2 ≤ ctx.offered_slots.length →
      (step slots gen SLOT_OFFER ctx text).1 = CONFIRMATION ∧
      (step slots gen SLOT_OFFER ctx text).2.chosen_slot_index = some 1) := by
  have hTop : stepTop ctx SLOT_OFFER (classify text) = ctx :=
    stepTop_of_not_intent_state (by decide)
  have hstep : step slots gen SLOT_OFFER ctx text = handle_slot_choice slots text ctx := by
    show handle_slot_choice slots text (stepTop ctx SLOT_OFFER (classify text)) = _
    rw [hTop]
  have hcond2 : ¬((containsTok (pyStrip (lowerStr text)) "none" ||
      containsTok (pyStrip (lowerStr text)) "neither") = true) := by
    rw [hnone, hneither]
    simp
  constructor
  · intro hfirst
    rw [hstep]
    unfold handle_slot_choice
    try dsimp only
    rw [if_neg hpref, if_neg hcond2, if_pos hfirst, if_neg]
    · exact ⟨rfl, rfl⟩
    · rintro (h | h)
      · exact hne (List.isEmpty_iff.mp h)
      · exact hne (List.eq_nil_of_length_eq_zero (Nat.le_zero.mp h))
  · intro hfirst hsecond hlen
    rw [hstep]
    unfold handle_slot_choice
    try dsimp only
    rw [if_neg hpref, if_neg hcond2, if_neg (by rw [hfirst]; simp), if_pos hsecond, if_neg]
    · exact ⟨rfl, rfl⟩
    · rintro (h | h)
      · exact hne (List.isEmpty_iff.mp h)
      · omega

/-- Counterexample to C1 as frozen: in SLOT_OFFER with two slots on offer, the
input "option 1" contains a first-option token and no "none"/"neither", yet it
parses as a time preference ("1" ≙ 1:00), so the handler re-offers slots and
stays in SLOT_OFFER without choosing index 0. -/
theorem c1_counterexample :
    (runTrace mockSlots "NL-A742" ["", "yes", "book", "kyc", "Tuesday"]).1 = SLOT_OFFER ∧
    (runTrace mockSlots "NL-A742" ["", "yes", "book", "kyc", "Tuesday"]).2.offered_slots ≠ [] ∧
    containsTok (pyStrip (lowerStr "option 1")) "option 1" = true ∧
    containsTok (pyStrip (lowerStr "option 1")) "none" = false ∧
    containsTok (pyStrip (lowerStr "option 1")) "neither" = false ∧
    (step mockSlots "NL-A742" SLOT_OFFER
      (runTrace mockSlots "NL-A742" ["", "yes", "book", "kyc", "Tuesday"]).2 "option 1").1 ≠
      CONFIRMATION ∧
    (step mockSlots "NL-A742" SLOT_OFFER
      (runTrace mockSlots "NL-A742" ["", "yes", "book", "kyc", "Tuesday"]).2
      "option 1").2.chosen_slot_index ≠ some 0 := by
  decide

/-- Witness for C1: with one slot on offer and the input "first", the session
moves to CONFIRMATION with `chosen_slot_index = 0`. -/
theorem c1_witness :
    (step ([] : List Slot) "g" SLOT_OFFER
      { offered_slots := [Slot.mk "2026-02-10" "10:00" "IST"] } "first").1 = CONFIRMATION ∧
    (step ([] : List Slot) "g" SLOT_OFFER
      { offered_slots := [Slot.mk "2026-02-10" "10:00" "IST"] } "first").2.chosen_slot_index =
      some 0 :=
  (c1_theorem [] "g" { offered_slots := [Slot.mk "2026-02-10" "10:00" "IST"] } "first"
    (by decide) (by decide) (by decide) (by decide)).1 (by decide)

/-! ### Claim C10: booking code implies a valid chosen slot index -/

theorem chosenOk_congr {a b : ConversationContext}
    (h1 : a.chosen_slot_index = b.chosen_slot_index) (h2 : a.offered_slots = b.offered_slots)
    (h : chosenOk b) : chosenOk a := by
  obtain ⟨i, hi, hl⟩ := h
  exact ⟨i, by rw [h1, hi], by rw [h2]; exact hl⟩

/-- The inductive invariant: a set booking code only occurs in BOOKING_COMPLETE
with a valid chosen index, and CONFIRMATION always holds a valid chosen index. -/
theorem reachable_inv {s : ConversationState} {ctx : ConversationContext}
    (h : Reachable s ctx) :
    (ctx.booking_code.isSome = true → s = BOOKING_COMPLETE ∧ chosenOk ctx) ∧
    (s = CONFIRMATION → chosenOk ctx) := by
  induction h with
  | init =>
    constructor
    · intro hb
      cases hb
    · intro hc
      cases hc
  | @step slots gen text s ctx _ ih =>
    obtain ⟨ih1, ih2⟩ := ih
    by_cases hb : ctx.booking_code.isSome = true
    · obtain ⟨hbc, hck⟩ := ih1 hb
      subst hbc
      have hTop : stepTop ctx BOOKING_COMPLETE (classify text) = ctx :=
        stepTop_of_not_intent_state (by decide)
      have hstep : step slots gen BOOKING_COMPLETE ctx text = (BOOKING_COMPLETE, ctx) := by
        show (BOOKING_COMPLETE, stepTop ctx BOOKING_COMPLETE (classify text)) = _
        rw [hTop]
      rw [hstep]
      exact ⟨fun _ => ⟨rfl, hck⟩, fun hc => by simp at hc⟩
    · have hbn : ctx.booking_code = none := by
        cases hy : ctx.booking_code with
        | none => rfl
        | some c => rw [hy] at hb; exact absurd rfl hb
      obtain ⟨hP1, hP2, hP3, hP4⟩ := stepTop_preserves ctx s (classify text)
      set ctx1 := stepTop ctx s (classify text) with hctx1
      have hb1 : ctx1.booking_code = none := hP1.trans hbn
      cases s with
      | GREETING =>
        refine ⟨fun hb2 => ?_, fun hc => ?_⟩
        · rw [show (step slots gen GREETING ctx text).2 = ctx1 from rfl, hb1] at hb2
          cases hb2
        · exact absurd hc (by cases hc)
      | DISCLAIMER =>
        have h2 : (step slots gen DISCLAIMER ctx text).2 = ctx1 := handle_disclaimer_snd text ctx1
        refine ⟨fun hb2 => ?_, fun hc => ?_⟩
        · rw [h2, hb1] at hb2
          cases hb2
        · have : (step slots gen DISCLAIMER ctx text).1 = (handle_disclaimer text ctx1).1 := rfl
          rw [this] at hc
          unfold handle_disclaimer at hc
          split_ifs at hc
      | INTENT_CONFIRMATION =>
        obtain ⟨hs1, _, hs3, _, _, _⟩ := handle_intent_confirmation_shape text (classify text) ctx1
        refine ⟨fun hb2 => ?_, fun hc => ?_⟩
        · rw [show (step slots gen INTENT_CONFIRMATION ctx text).2 =
            (handle_intent_confirmation text (classify text) ctx1).2 from rfl, hs3, hb1] at hb2
          cases hb2
        · exact absurd hc hs1
      | TOPIC_COLLECTION =>
        obtain ⟨hs1, _, hs3⟩ := handle_topic_shape text ctx1
        refine ⟨fun hb2 => ?_, fun hc => ?_⟩
        · rw [show (step slots gen TOPIC_COLLECTION ctx text).2 =
            (handle_topic text ctx1).2 from rfl, hs3, hb1] at hb2
          cases hb2
        · exact absurd hc hs1
      | DATETIME_COLLECTION =>
        obtain ⟨hs1, _, hs3, _⟩ := handle_datetime_shape slots text ctx1
        refine ⟨fun hb2 => ?_, fun hc => ?_⟩
        · rw [show (step slots gen DATETIME_COLLECTION ctx text).2 =
            (handle_datetime slots text ctx1).2 from rfl, hs3, hb1] at hb2
          cases hb2
        · rw [show (step slots gen DATETIME_COLLECTION ctx text).1 =
            (handle_datetime slots text ctx1).1 from rfl, hs1] at hc
          cases hc
      | SLOT_OFFER =>
        obtain ⟨_, hs2, _⟩ := handle_slot_choice_shape slots text ctx1
        refine ⟨fun hb2 => ?_, fun hc => ?_⟩
        · rw [show (step slots gen SLOT_OFFER ctx text).2 =
            (handle_slot_choice slots text ctx1).2 from rfl, hs2, hb1] at hb2
          cases hb2
        · exact handle_slot_choice_confirmation slots text ctx1 hc
      | CONFIRMATION =>
        have hckx : chosenOk ctx1 := chosenOk_congr hP2 hP3 (ih2 rfl)
        refine ⟨fun hb2 => ?_, fun hc => ?_⟩
        · rcases handle_confirmation_booking gen text ctx1 with heq | ⟨-, hst, -, hctx⟩
          · rw [show (step slots gen CONFIRMATION ctx text).2 =
              (handle_confirmation gen text ctx1).2 from rfl, heq, hb1] at hb2
            cases hb2
          · refine ⟨hst, ?_⟩
            rw [show (step slots gen CONFIRMATION ctx text).2 =
              (handle_confirmation gen text ctx1).2 from rfl, hctx]
            exact chosenOk_congr rfl rfl hckx
        · have := handle_confirmation_stay gen text ctx1 hc
          rw [show (step slots gen CONFIRMATION ctx text).2 =
            (handle_confirmation gen text ctx1).2 from rfl, this]
          exact hckx
      | BOOKING_COMPLETE =>
        refine ⟨fun hb2 => ⟨rfl, ?_⟩, fun hc => ?_⟩
        · rw [show (step slots gen BOOKING_COMPLETE ctx text).2 = ctx1 from rfl, hb1] at hb2
          cases hb2
        · cases hc
      | RESCHEDULE_ASK_CODE =>
        obtain ⟨hs1, _, hs3, _, _, _⟩ := handle_ask_code_shape text ctx1
        refine ⟨fun hb2 => ?_, fun hc => ?_⟩
        · rw [show (step slots gen RESCHEDULE_ASK_CODE ctx text).2 =
            (handle_reschedule_ask_code text ctx1).2 from rfl, hs3, hb1] at hb2
          cases hb2
        · exact absurd hc hs1
      | CANCEL_ASK_CODE =>
        obtain ⟨_, _, _, hs4, _, hs6⟩ := handle_ask_code_shape text ctx1
        refine ⟨fun hb2 => ?_, fun hc => ?_⟩
        · rw [show (step slots gen CANCEL_ASK_CODE ctx text).2 =
            (handle_cancel_ask_code text ctx1).2 from rfl, hs6, hb1] at hb2
          cases hb2
        · exact absurd hc hs4
      | CANCEL_CONFIRM =>
        obtain ⟨hs1, hs2⟩ := handle_cancel_confirm_shape text ctx1
        refine ⟨fun hb2 => ?_, fun hc => ?_⟩
        · rw [show (step slots gen CANCEL_CONFIRM ctx text).2 =
            (handle_cancel_confirm text ctx1).2 from rfl, hs2, hb1] at hb2
          cases hb2
        · exact absurd hc hs1

/-- Claim C10: in every reachable session state, a set `booking_code` implies
`chosen_slot_index` is set and in bounds of `offered_slots`, so the
slot lookup of the new-booking summary in `_summarize_booking` never goes out of
bounds. -/
theorem c10_theorem (s : ConversationState) (ctx : ConversationContext)
    (h : Reachable s ctx) (hb : ctx.booking_code.isSome = true) :
    ∃ i, ctx.chosen_slot_index = some i ∧ i < ctx.offered_slots.length :=
  ((reachable_inv h).1 hb).2

theorem reachable_foldl (slots : List Slot) (gen : String) (texts : List String) :
    ∀ s ctx, Reachable s ctx →
      Reachable (texts.foldl (fun p t => step slots gen p.1 p.2 t) (s, ctx)).1
        (texts.foldl (fun p t => step slots gen p.1 p.2 t) (s, ctx)).2 := by
  induction texts with
  | nil => exact fun s ctx h => h
  | cons t ts ih =>
    intro s ctx h
    exact ih _ _ (Reachable.step slots gen t h)

theorem reachable_runTrace (slots : List Slot) (gen : String) (texts : List String) :
    Reachable (runTrace slots gen texts).1 (runTrace slots gen texts).2 :=
  reachable_foldl slots gen texts GREETING {} Reachable.init

/-- Witness for C10: the completed book-new journey of the spec ends with a
booking code and chosen index 0 within the (two) offered slots. -/
theorem c10_witness :
    (runTrace mockSlots "NL-A742"
      ["", "yes", "book", "kyc", "Tuesday", "first", "yes"]).2.booking_code.isSome = true ∧
    ∃ i, (runTrace mockSlots "NL-A742"
        ["", "yes", "book", "kyc", "Tuesday", "first", "yes"]).2.chosen_slot_index = some i ∧
      i < (runTrace mockSlots "NL-A742"
        ["", "yes", "book", "kyc", "Tuesday", "first", "yes"]).2.offered_slots.length :=
  ⟨by decide,
    c10_theorem _ _
      (reachable_runTrace mockSlots "NL-A742" ["", "yes", "book", "kyc", "Tuesday", "first", "yes"])
      (by decide)⟩

/-! ### Claim C4: ranking order of `offer_slots` -/

theorem take2_len (l : List Slot) : (l.take 2).length ≤ 2 := by
  simp [List.length_take]

theorem sorted_branch_time (p : Nat) (kept : List Slot)
    (hk : kept.Pairwise (fun a b => leDateTime a b = true)) :
    ((sortStable (leDist p) kept).take 2).Pairwise (lexDist p) :=
  (pairwise_lex_sortStable p kept hk).sublist (List.take_sublist _ _)

theorem sorted_branch_dt (kept : List Slot) :
    ((sortStable leDateTime kept).take 2).Pairwise (fun a b => leDateTime a b = true) :=
  (pairwise_sortStable leDateTime leDateTime_total
    (fun _ _ _ => leDateTime_trans) kept).sublist (List.take_sublist _ _)

theorem sorted_branch_time_samedate (ds : String) (kept : List Slot)
    (hd : ∀ z ∈ kept, z.date = ds) :
    ((sortStable leTime kept).take 2).Pairwise (fun a b => leDateTime a b = true) := by
  have h1 := pairwise_sortStable leTime leTime_total (fun _ _ _ => leTime_trans) kept
  have h2 : (sortStable leTime kept).Pairwise (fun a b => leDateTime a b = true) := by
    refine h1.imp_of_mem ?_
    intro a b ha hb hr
    have hda := hd a ((mem_sortStable leTime a kept).mp ha)
    have hdb := hd b ((mem_sortStable leTime b kept).mp hb)
    unfold leDateTime
    rw [if_pos (hda.trans hdb.symm)]
    exact hr
  exact h2.sublist (List.take_sublist _ _)

/-- Claim C4 (amended): for every candidate slot list ordered ascending by
(date, time) — as the shipped slot sources produce — `offer_slots` returns at
most 2 slots; when a preferred time was parsed the result is sorted ascending
by absolute time distance with ties broken by (date, time) order, and when no
time was parsed the result is in (date, time) order. -/
theorem c4_theorem (l : List Slot) (t : Option String)
    (hsort : l.Pairwise (fun a b => leDateTime a b = true)) :
    (offer_slots l t).length ≤ 2 ∧
    (∀ p, (parse_preferred_datetime (t.getD "")).2.1 = some p →
      (offer_slots l t).Pairwise (lexDist p)) ∧
    ((parse_preferred_datetime (t.getD "")).2.1 = none →
      (offer_slots l t).Pairwise (fun a b => leDateTime a b = true)) := by
  rcases hp : parse_preferred_datetime (t.getD "") with ⟨pw, pm, pd⟩
  cases pd with
  | some ds =>
    by_cases hemp : (l.filter (fun s => s.date = ds)).isEmpty
    · refine ⟨?_, ?_, ?_⟩ <;> simp [offer_slots, hp, hemp]
    · have hfilter : (l.filter (fun s => s.date = ds)).Pairwise
          (fun a b => leDateTime a b = true) := hsort.filter _
      have hdates : ∀ z ∈ l.filter (fun s => s.date = ds), z.date = ds := fun z hz => by
        simpa using (List.mem_filter.mp hz).2
      cases pm with
      | some p =>
        refine ⟨?_, ?_, ?_⟩
        · simp only [offer_slots, hp, hemp, Bool.false_eq_true, if_false]
          exact take2_len _
        · intro p' hp'
          have hpp : p' = p := (Option.some_inj.mp hp').symm
          subst hpp
          simp only [offer_slots, hp, hemp, Bool.false_eq_true, if_false]
          exact sorted_branch_time p' _ hfilter
        · intro hno
          simp at hno
      | none =>
        refine ⟨?_, ?_, ?_⟩
        · simp only [offer_slots, hp, hemp, Bool.false_eq_true, if_false]
          exact take2_len _
        · intro p' hp'
          simp at hp'
        · intro _
          simp only [offer_slots, hp, hemp, Bool.false_eq_true, if_false]
          exact sorted_branch_time_samedate ds _ hdates
  | none =>
    cases pw with
    | some w =>
      by_cases hemp : (l.filter (fun s => s.weekday = w)).isEmpty
      · refine ⟨?_, ?_, ?_⟩ <;> simp [offer_slots, hp, hemp]
      · have hfilter : (l.filter (fun s => s.weekday = w)).Pairwise
            (fun a b => leDateTime a b = true) := hsort.filter _
        cases pm with
        | some p =>
          refine ⟨?_, ?_, ?_⟩
          · simp only [offer_slots, hp, hemp, Bool.false_eq_true, if_false]
            exact take2_len _
          · intro p' hp'
            have hpp : p' = p := (Option.some_inj.mp hp').symm
            subst hpp
            simp only [offer_slots, hp, hemp, Bool.false_eq_true, if_false]
            exact sorted_branch_time p' _ hfilter
          · intro hno
            simp at hno
        | none =>
          refine ⟨?_, ?_, ?_⟩
          · simp only [offer_slots, hp, hemp, Bool.false_eq_true, if_false]
            exact take2_len _
          · intro p' hp'
            simp at hp'
          · intro _
            simp only [offer_slots, hp, hemp, Bool.false_eq_true, if_false]
            exact sorted_branch_dt _
    | none =>
      cases pm with
      | some p =>
        refine ⟨?_, ?_, ?_⟩
        · simp only [offer_slots, hp]
          exact take2_len _
        · intro p' hp'
          have hpp : p' = p := (Option.some_inj.mp hp').symm
          subst hpp
          simp only [offer_slots, hp]
          exact (pairwise_lex_sortStable p' l hsort).sublist (List.take_sublist _ _)
        · intro hno
          simp at hno
      | none =>
        refine ⟨?_, ?_, ?_⟩
        · simp only [offer_slots, hp]
          exact take2_len _
        · intro p' hp'
          simp at hp'
        · intro _
          simp only [offer_slots, hp]
          exact hsort.sublist (List.take_sublist _ _)

/-- Counterexample to C4 as frozen: over an arbitrary candidate list from the
slot source, the kept set is NOT re-sorted by (date, time) when no time is
parsed (the Python stable sort only reorders by the distance key, and the
no-preference path does not sort at all): with the candidates in the order
[Feb 13 10:00, Feb 10 09:00] and the empty preference, `offer_slots` returns
them unsorted. -/
theorem c4_counterexample :
    (parse_preferred_datetime "").2.1 = none ∧
    offer_slots [Slot.mk "2026-02-13" "10:00" "IST", Slot.mk "2026-02-10" "09:00" "IST"] none =
      [Slot.mk "2026-02-13" "10:00" "IST", Slot.mk "2026-02-10" "09:00" "IST"] ∧
    ¬ ([Slot.mk "2026-02-13" "10:00" "IST", Slot.mk "2026-02-10" "09:00" "IST"] : List Slot).Pairwise
        (fun a b => leDateTime a b = true) := by
  refine ⟨rfl, rfl, ?_⟩
  intro h
  have h2 := (List.pairwise_cons.mp h).1 _ (List.mem_cons_self _ _)
  exact absurd h2 (by decide)

/-- Witness for C4: the (date, time)-sorted mock slot list with the preference
"Friday, 10am" (parsed time 600) yields at most two slots ranked by distance
to 10:00 with (date, time) tie-breaking. -/
theorem c4_witness :
    (offer_slots mockSlots (some "Friday, 10am")).length ≤ 2 ∧
    (offer_slots mockSlots (some "Friday, 10am")).Pairwise (lexDist 600) := by
  have h := c4_theorem mockSlots (some "Friday, 10am") (by decide)
  exact ⟨h.1, h.2.1 600 (by decide)⟩

/-! ### Claim C7: the contract of the intent classifier -/

theorem winningPair_fst_none {s : String} (h : (winningPair s).1 = none) :
    (winningPair s).2 = 0 := by
  unfold winningPair at h ⊢
  suffices H : ∀ (L : List (String × List String)) (acc : Option String × Nat),
      (acc.1 = none → acc.2 = 0) →
      ((L.foldl (fun acc p =>
          if acc.2 < intentScore s p.2 then (some p.1, intentScore s p.2) else acc) acc).1 =
        none →
       (L.foldl (fun acc p =>
          if acc.2 < intentScore s p.2 then (some p.1, intentScore s p.2) else acc) acc).2 = 0) by
    exact H INTENTS (none, 0) (fun _ => rfl) h
  intro L
  induction L with
  | nil => exact fun acc hacc => hacc
  | cons q L ih =>
    intro acc hacc
    show ((L.foldl _ (if acc.2 < intentScore s q.2 then (some q.1, intentScore s q.2)
      else acc)).1 = none → _)
    apply ih
    by_cases hlt : acc.2 < intentScore s q.2
    · rw [if_pos hlt]
      intro hcon
      cases hcon
    · rw [if_neg hlt]
      exact hacc

/-- Claim C7: `classify` is total (a Lean function), always echoes the raw
text, returns confidence in the fixed ladder set, maps the winning
keyword-match count through the ladder (1 → 0.4, 2 → 0.7, ≥3 → 0.9), and
returns no intent with confidence 0.0 on empty/whitespace text or when no
intent scores above zero. -/
theorem c7_theorem (text : String) :
    ((classify text).confidence = 0 ∨ (classify text).confidence = 0.4 ∨
      (classify text).confidence = 0.7 ∨ (classify text).confidence = 0.9) ∧
    (classify text).raw_text = text ∧
    (pyStrip (lowerStr text) = "" → classify text = ⟨none, 0, text⟩) ∧
    ((winningPair (pyStrip (lowerStr text))).2 = 0 → classify text = ⟨none, 0, text⟩) ∧
    ((winningPair (pyStrip (lowerStr text))).2 = 1 → (classify text).confidence = 0.4) ∧
    ((winningPair (pyStrip (lowerStr text))).2 = 2 → (classify text).confidence = 0.7) ∧
    (3 ≤ (winningPair (pyStrip (lowerStr text))).2 → (classify text).confidence = 0.9) := by
  unfold classify
  try dsimp only
  by_cases hemp : pyStrip (lowerStr text) = ""
  · rw [if_pos hemp]
    have hwp : winningPair (pyStrip (lowerStr text)) = (none, 0) := by
      rw [hemp]
      decide
    rw [hwp]
    refine ⟨Or.inl rfl, rfl, fun _ => rfl, fun _ => rfl, ?_, ?_, ?_⟩
    · intro h
      omega
    · intro h
      omega
    · intro h
      omega
  · rw [if_neg hemp]
    by_cases h0 : (winningPair (pyStrip (lowerStr text))).2 = 0 ∨
        (winningPair (pyStrip (lowerStr text))).1 = none
    · rw [if_pos h0]
      have h02 : (winningPair (pyStrip (lowerStr text))).2 = 0 := by
        rcases h0 with h | h
        · exact h
        · exact winningPair_fst_none h
      rw [h02]
      refine ⟨Or.inl rfl, rfl, fun _ => rfl, fun _ => rfl, ?_, ?_, ?_⟩
      · intro h
        omega
      · intro h
        omega
      · intro h
        omega
    · rw [if_neg h0]
      push_neg at h0
      obtain ⟨hs0, _⟩ := h0
      refine ⟨?_, rfl, fun he => absurd he hemp, fun h => absurd h hs0, ?_, ?_, ?_⟩
      · by_cases h1 : (winningPair (pyStrip (lowerStr text))).2 = 1
        · right
          left
          simp [h1]
        · by_cases h2 : (winningPair (pyStrip (lowerStr text))).2 = 2
          · right
            right
            left
            simp [h1, h2]
          · right
            right
            right
            simp [h1, h2]
      · intro h1
        simp [h1]
      · intro h2
        simp [h2]
      · intro h3
        have h1 : (winningPair (pyStrip (lowerStr text))).2 ≠ 1 := by omega
        have h2 : (winningPair (pyStrip (lowerStr text))).2 ≠ 2 := by omega
        simp [h1, h2]

/-- Witness for C7: "book a slot" matches two book_new keywords and classifies
with confidence 0.7. -/
theorem c7_witness :
    (winningPair (pyStrip (lowerStr "book a slot"))).2 = 2 ∧
    (classify "book a slot").confidence = 0.7 :=
  ⟨by decide, ( c7_theorem "book a slot").2.2.2.2.2.1 (by decide)⟩

/-! ### Claim C8: unresolvable dates fall through -/

theorem toLower_of_space {c : Char} (h : isSpaceC c = true) : Char.toLower c = c := by
  unfold Char.toLower
  dsimp only
  rw [if_neg]
  simp only [isSpaceC, Bool.or_eq_true, decide_eq_true_eq] at h
  rintro ⟨h65, -⟩
  rcases h with ((((h | h) | h) | h) | h) | h
  · rw [h] at h65
    exact absurd h65 (by decide)
  · rw [h] at h65
    exact absurd h65 (by decide)
  · rw [h] at h65
    exact absurd h65 (by decide)
  · rw [h] at h65
    exact absurd h65 (by decide)
  · omega
  · omega

theorem pyStrip_empty_all_space {s : String} (h : pyStrip s = "") :
    ∀ c ∈ s.data, isSpaceC c = true := by
  have hdata : ((s.data.dropWhile isSpaceC).reverse.dropWhile isSpaceC).reverse = [] :=
    congrArg String.data h
  have h2 : (s.data.dropWhile isSpaceC).reverse.dropWhile isSpaceC = [] := by
    simpa using hdata
  have h3 : ∀ c ∈ (s.data.dropWhile isSpaceC).reverse, isSpaceC c = true :=
    List.dropWhile_eq_nil_iff.mp h2
  have h4 : ∀ c ∈ s.data.dropWhile isSpaceC, isSpaceC c = true := fun c hc =>
    h3 c (List.mem_reverse.mpr hc)
  intro c hc
  have hsplit : s.data.takeWhile isSpaceC ++ s.data.dropWhile isSpaceC = s.data :=
    List.takeWhile_append_dropWhile isSpaceC s.data
  rw [← hsplit] at hc
  rcases List.mem_append.mp hc with hm | hm
  · exact List.mem_takeWhile_imp hm
  · exact h4 c hm

theorem lowerStr_of_all_space {s : String} (h : ∀ c ∈ s.data, isSpaceC c = true) :
    lowerStr s = s := by
  cases s with
  | mk l =>
    show String.mk (l.map Char.toLower) = String.mk l
    congr 1
    calc l.map Char.toLower = l.map id := List.map_congr_left (fun c hc => toLower_of_space (h c hc))
    _ = l := List.map_id l

theorem pyStrip_lower_empty {text : String} (h : pyStrip text = "") :
    pyStrip (lowerStr text) = "" := by
  rw [lowerStr_of_all_space (pyStrip_empty_all_space h)]
  exact h

/-- Claim C8: when no month-phrase of the text resolves to a valid 2026
calendar day (in particular when a day+month phrase names a day the month does
not have), parsing yields no explicit date and falls through to the
weekday-name and time-only logic; the parser is a total Lean function, so
nothing is raised. -/
theorem c8_theorem (text : String)
    (h : ∀ m < 13, 1 ≤ m → tryMonthIdx (pyStrip (lowerStr text)).data m = none) :
    parse_preferred_datetime text =
      (weekdaySearch (pyStrip (lowerStr text)).data,
       timeMinutes (pyStrip (lowerStr text)).data, none) := by
  have hD : parseDate (pyStrip (lowerStr text)).data = none := by
    refine List.findSome?_eq_none_iff.mpr ?_
    intro i hi
    have hir : i < 12 := List.mem_range.mp hi
    exact h (i + 1) (by omega) (by omega)
  unfold parse_preferred_datetime
  split
  · rename_i he
    rw [pyStrip_lower_empty he]
    decide
  · unfold weekdayOf
    rw [hD]
    rfl

/-- Witness for C8: "feb 31 friday" contains the unresolvable phrase "feb 31"
(February has 28 days in 2026); no date is reported, the weekday comes from
the name "friday", and the time comes from the time-only scan. -/
theorem c8_witness :
    (∀ m < 13, 1 ≤ m → tryMonthIdx (pyStrip (lowerStr "feb 31 friday")).data m = none) ∧
    parse_preferred_datetime "feb 31 friday" =
      (weekdaySearch (pyStrip (lowerStr "feb 31 friday")).data,
       timeMinutes (pyStrip (lowerStr "feb 31 friday")).data, none) ∧
    (parse_preferred_datetime "feb 31 friday").1 = some 4 ∧
    (parse_preferred_datetime "feb 31 friday").2.2 = none :=
  ⟨by decide, c8_theorem "feb 31 friday" (by decide), by decide, by decide⟩

/-! ### Claim C9: the scenario "10 Feb, 10am" and 12-hour normalization -/

/-- Claim C9: parsing "10 Feb, 10am" yields the explicit date 2026-02-10 (the
fixed reference year of the engine is 2026), weekday 1 (Tuesday, the weekday
of the date, equal to `Slot.weekday` of a slot on that date), and 600 minutes; the
shared hour normalization adds 12 hours to a bare pm hour below 12 and maps a
bare am hour of 12 to 0. -/
theorem c9_theorem :
    parse_preferred_datetime "10 Feb, 10am" = (some 1, some 600, some "2026-02-10") ∧
    dateWeekday 2026 2 10 = 1 ∧
    (Slot.mk "2026-02-10" "10:00" "IST").weekday = 1 ∧
    (∀ h, h < 12 → normalizeHour h "pm" = h + 12) ∧
    normalizeHour 12 "am" = 0 := by
  refine ⟨by decide, by decide, by decide, ?_, by decide⟩
  intro h hh
  unfold normalizeHour
  rw [if_pos ⟨rfl, hh⟩]
  exact Nat.min_eq_right (by omega)

/-- Witness for C9: the pm-normalization at the concrete hour 3. -/
theorem c9_witness : 3 < 12 ∧ normalizeHour 3 "pm" = 3 + 12 :=
  ⟨by decide, c9_theorem.2.2.2.1 3 (by decide)⟩

end VoiceAgent
